import Mathlib

set_option maxRecDepth 4000

/-!
Verification development for the v4l2_codec2 hardware video decode pipeline.

The C++ sources are shallowly embedded:
* machine integers become `Nat`/`Int` with explicit `% 2 ^ 32` where unsigned
  wrap-around matters (signed overflow is undefined behaviour in C++ and is
  modelled with unbounded `Int`),
* the stagefright `ABitReader` becomes a `List Bool` of remaining bits
  (`getBitsGraceful` fails when fewer bits remain than requested or when more
  than 32 bits are requested, exactly as the C++ reader does),
* fallible C++ functions returning `bool` with out-parameters become
  `Option`-valued functions,
* state mutation becomes explicit state passing.
-/

namespace V4L2Codec2

/-! ### ABitReader (media/stagefright/foundation/ABitReader)

The reader consumes bits most-significant-bit first.  `getBitsGraceful`
returns `false` (here: `none`) if more than 32 bits are requested, or if the
data is exhausted before `n` bits could be delivered; in the latter case the
reader is left exhausted.  `skipBits` consumes bits with a fallback of zero
and never fails; over-skipping simply exhausts the reader. -/

/-- Value of a bit string, most significant bit first. -/
def bitsToNat (bs : List Bool) : Nat :=
  bs.foldl (fun a b => 2 * a + (if b then 1 else 0)) 0

/-- `ABitReader::getBitsGraceful(n, out)`: `none` if `n > 32` or fewer than
`n` bits remain, otherwise the value of the first `n` bits and the rest. -/
def getBitsG (n : Nat) (bs : List Bool) : Option (Nat × List Bool) :=
  if n > 32 then none
  else if n ≤ bs.length then some (bitsToNat (bs.take n), bs.drop n) else none

/-- `ABitReader::skipBits(n)`: never fails, over-skipping exhausts the
reader. -/
def skipBits (n : Nat) (bs : List Bool) : List Bool := bs.drop n

/-! ### Exp-Golomb parsing (NalParser.cpp: NalParser::parseUE / parseSE) -/

/-- The leading-zero counting loop of `NalParser::parseUE`: read single bits
until a one bit is found, failing if the data runs out first. -/
def countLeadingZeroBits : List Bool → Option (Nat × List Bool)
  | [] => none
  | b :: bs =>
    if b then some (0, bs)
    else
      match countLeadingZeroBits bs with
      | none => none
      | some (k, r) => some (k + 1, r)

/-- `NalParser::parseUE`, returning the parsed value (if any) together with
the state of the bit reader afterwards.  A failed `getBitsGraceful` caused by
exhaustion leaves the reader exhausted; a failed one caused by `n > 32` does
not consume anything.  The `+= (1u << numZeroes) - 1` update is 32-bit
unsigned arithmetic (`numZeroes = 32` would be an undefined shift in C++;
the wrap below is one concretisation of it, no claim depends on it). -/
def parseUECore (bs : List Bool) : Option Nat × List Bool :=
  match countLeadingZeroBits bs with
  | none => (none, [])
  | some (k, bs1) =>
    match getBitsG k bs1 with
    | none => (none, if k > 32 then bs1 else [])
    | some (v, bs2) => (some ((v + (2 ^ k - 1)) % 2 ^ 32), bs2)

/-- `NalParser::parseUE` as used when the caller checks the return value. -/
def parseUE (bs : List Bool) : Option (Nat × List Bool) :=
  match parseUECore bs with
  | (some v, r) => some (v, r)
  | (none, _) => none

/-- The state of the bit reader after a `parseUE` call whose result is
ignored (several SPS fields are parsed this way in HEVCNalParser.cpp). -/
def parseUEIgnore (bs : List Bool) : List Bool := (parseUECore bs).2

/-- Reinterpret a `uint32_t` value as `int32_t` (two's complement). -/
def toInt32 (n : Nat) : Int :=
  if n % 2 ^ 32 < 2 ^ 31 then ((n % 2 ^ 32 : Nat) : Int)
  else ((n % 2 ^ 32 : Nat) : Int) - 2 ^ 32

/-- Reinterpret an `int` value as `uint32_t`, as C++ does in comparisons
between `int` and `uint32_t` operands. -/
def toUInt32OfInt (i : Int) : Nat := (i % 2 ^ 32).toNat

/-- `NalParser::parseSE`: parse an unsigned Exp-Golomb code `c` and map it to
`(c + 1) >> 1` if `c` is odd, else `-(int32_t)(c >> 1)` (all in 32-bit
arithmetic, then assigned to a signed 32-bit out-parameter). -/
def parseSE (bs : List Bool) : Option (Int × List Bool) :=
  match parseUE bs with
  | none => none
  | some (c, bs1) =>
    some ((if c % 2 = 1 then toInt32 (((c + 1) % 2 ^ 32) / 2) else -toInt32 (c / 2)), bs1)

/-! Encoders: reference-side inverses of the parsers, written from the
Exp-Golomb coding rule the spec states (`parse_ue` reads `k` leading zeros,
then one, then `k` bits `v`, yielding `(1<<k)-1 + v`). -/

/-- Big-endian bit string of width `k` for the value `v` (mod `2 ^ k`). -/
def natBitsBE : Nat → Nat → List Bool
  | 0, _ => []
  | k + 1, v => natBitsBE k (v / 2) ++ [decide (v % 2 = 1)]

/-- Exp-Golomb encoding of an unsigned value. -/
def encodeUE (x : Nat) : List Bool :=
  let k := Nat.log2 (x + 1)
  List.replicate k false ++ true :: natBitsBE k (x + 1 - 2 ^ k)

/-- Exp-Golomb encoding of a signed value: positive `x` maps to the odd code
`2x - 1`, non-positive `x` to the even code `-2x`. -/
def encodeSE (x : Int) : List Bool :=
  encodeUE (if 0 < x then (2 * x - 1).toNat else (-(2 * x)).toNat)

/-! ### DecodeInterface input-buffer sizing (DecodeInterface.cpp) -/

def k1080pArea : Nat := 1920 * 1088
def k4KArea : Nat := 3840 * 2160
def kInputBufferSizeFor1080p : Nat := 2 * 1024 * 1024
def kInputBufferSizeFor4K : Nat := 4 * kInputBufferSizeFor1080p

/-- `calculateInputBufferSize` from DecodeInterface.cpp: the 4K-sized buffer
is selected whenever the area exceeds the 1080p area. -/
def calculateInputBufferSize (area : Nat) : Nat :=
  if area > k1080pArea then kInputBufferSizeFor4K else kInputBufferSizeFor1080p

/-- `DecodeInterface::MaxInputBufferSizeCalculator`: raise the configured
value to the calculated size if it is smaller (`size.v.width` and
`size.v.height` are `uint32_t`, so their product wraps mod `2 ^ 32`). -/
def maxInputBufferSizeCalculator (currentValue width height : Nat) : Nat :=
  let calculatedSize := calculateInputBufferSize ((width * height) % 2 ^ 32)
  if currentValue < calculatedSize then calculatedSize else currentValue

/-! ### NAL unit scanning (NalParser.cpp)

A `NalParser` walks a byte buffer; `findNextStartCodePos` is
`std::search` for the three-byte pattern `00 00 01` from the current
position (returning the end position when there is no match).  Bytes are
modelled as `Nat` values (callers only ever hand it `uint8_t` data). -/

/-- Offset of the first `00 00 01` start code in `l`, or `l.length` if there
is none (mirroring `std::search` returning the end iterator). -/
def findSCFrom : List Nat → Nat
  | [] => 0
  | b :: rest =>
    if b = 0 ∧ rest.getD 0 256 = 0 ∧ rest.getD 1 256 = 1 ∧ 2 ≤ rest.length then 0
    else 1 + findSCFrom rest

/-- `NalParser::findNextStartCodePos` with the cursor at byte index `p`:
index of the first start code at or after `p`, or an index `≥ bytes.length`
(the end iterator) if there is none. -/
def findNextStartCodePos (bytes : List Nat) (p : Nat) : Nat :=
  p + findSCFrom (bytes.drop p)

/-- `NalParser::length()` with the NAL data starting at `curr` and the next
start code at `next` (`next ≥ bytes.length` plays the role of
`mNextNalStartCodePos == mDataEnd`): byte count up to the next start code,
minus one if the byte just before that start code is `0x00` (four-byte start
code). -/
def nalLengthAt (bytes : List Nat) (curr next : Nat) : Nat :=
  if bytes.length ≤ next then bytes.length - curr
  else
    let l := next - curr
    if bytes.getD (next - 1) 256 = 0 then l - 1 else l

/-- The `while (locateNextNal()) { if (length() == 0) continue;
if (type() != target) continue; return true; }` loop shared by
`H264NalParser::locateIDR` / `locateSPS` and their HEVC counterparts.
`next` is `mNextNalStartCodePos`; `tyF` extracts the NAL type from the first
byte of the NAL data. -/
def locateNalLoop (bytes : List Nat) (tyF : Nat → Nat) (target : Nat)
    (next : Nat) : Bool :=
  if _h : next < bytes.length then
    let curr := next + 3
    let next' := curr + findSCFrom (bytes.drop curr)
    if nalLengthAt bytes curr next' ≠ 0 ∧ tyF (bytes.getD curr 0) = target then true
    else locateNalLoop bytes tyF target next'
  else false
termination_by bytes.length - next
decreasing_by omega

/-- `HEVCNalParser::type()`: bits 6..1 of the first NAL byte
(`(*pos & 0x7e) >> 1`). -/
def hevcNalType (b : Nat) : Nat := (b &&& 0x7e) / 2

/-- `HEVCNalParser::locateIDR`: scan for a non-empty NAL of type 19
(IDR_W_RADL); the scan starts from the position computed by the
`NalParser` constructor. -/
def hevcLocateIDR (bytes : List Nat) : Bool :=
  locateNalLoop bytes hevcNalType 19 (findNextStartCodePos bytes 0)

/-- Modelled from the spec: `H264NalParser::type()` is not under `src/`
(only its header is); the spec states it is the low five bits of the first
NAL byte. -/
def h264NalType (b : Nat) : Nat := b &&& 31

/-- Modelled from the spec: `H264NalParser::locateIDR` is not under `src/`;
the spec states it advances to the next NAL of type 5, using the shared
start-code walker (the loop shape is the one of the in-tree HEVC variant
and of the base-class contract). -/
def h264LocateIDR (bytes : List Nat) : Bool :=
  locateNalLoop bytes h264NalType 5 (findNextStartCodePos bytes 0)

/-! Declarative (spec-side) description of "a NAL of the given type is
found", used to state the refinement of the scanning loop. -/

/-- There is a `00 00 01` start code at byte index `s`. -/
def IsStartCodeAt (bytes : List Nat) (s : Nat) : Prop :=
  s + 3 ≤ bytes.length ∧ bytes.getD s 256 = 0 ∧ bytes.getD (s + 1) 256 = 0 ∧
    bytes.getD (s + 2) 256 = 1

instance (bytes : List Nat) (s : Nat) : Decidable (IsStartCodeAt bytes s) := by
  unfold IsStartCodeAt; infer_instance

/-- The NAL unit following the start code at `s` is non-empty and has type
`target`. -/
def NalMatchesAt (bytes : List Nat) (tyF : Nat → Nat) (target s : Nat) : Prop :=
  nalLengthAt bytes (s + 3) (findNextStartCodePos bytes (s + 3)) ≠ 0 ∧
    tyF (bytes.getD (s + 3) 0) = target

instance (bytes : List Nat) (tyF : Nat → Nat) (target s : Nat) :
    Decidable (NalMatchesAt bytes tyF target s) := by
  unfold NalMatchesAt; infer_instance

/-- Spec-side predicate: the stream contains a start code followed by a
non-empty NAL unit whose type is `target`. -/
def ContainsNalOfType (bytes : List Nat) (tyF : Nat → Nat) (target : Nat) : Prop :=
  ∃ s, IsStartCodeAt bytes s ∧ NalMatchesAt bytes tyF target s

/-! ### waitForDRC (V4L2Decoder.cpp, anonymous namespace) -/

inductive VideoCodec
  | h264
  | hevc
  | vp8
  | vp9
deriving DecidableEq

/-- `waitForDRC`: for H.264/HEVC scan the buffer for an IDR NAL; for VP8 and
VP9 inspect the key-frame bit of the first byte of the uncompressed header
(`kVP8FrameTypeMask = 0x1`, `kVP9FrameTypeMask = 0x4`, 0 meaning key frame).
Reading `pos[0]` of an empty buffer would be undefined in C++; the model
reads 0. -/
def waitForDRC (codec : VideoCodec) (data : List Nat) : Bool :=
  match codec with
  | .h264 => h264LocateIDR data
  | .hevc => hevcLocateIDR data
  | .vp9 => decide (data.getD 0 0 &&& 0x4 = 0)
  | .vp8 => decide (data.getD 0 0 &&& 0x1 = 0)

/-! ### HEVC SPS parsing (HEVCNalParser.cpp)

`HEVCNalParser::findCodedColorAspects` walks the whole SPS header with a
`NALBitReader` (which removes `00 00 03` emulation-prevention bytes) until it
reaches the VUI colour description.  The walk below is the same sequence of
reads, skips and checks, split into named stages so that individual fields
can be referred to. -/

/-- The colour aspects out-parameter of `findCodedColorAspects`. -/
structure ColorAspects where
  primaries : Nat
  transfer : Nat
  coeffs : Nat
  fullRange : Bool
deriving DecidableEq

/-- `NALBitReader` emulation-prevention removal: a `0x03` byte following two
`0x00` bytes is skipped (and resets the zero counter). -/
def rbspDeescapeAux : Nat → List Nat → List Nat
  | _, [] => []
  | z, b :: rest =>
    if 2 ≤ z ∧ b = 3 then rbspDeescapeAux 0 rest
    else b :: rbspDeescapeAux (if b = 0 then z + 1 else 0) rest

def rbspDeescape (l : List Nat) : List Nat := rbspDeescapeAux 0 l

/-- The eight bits of a byte, most significant first. -/
def byteBits (b : Nat) : List Bool := natBitsBE 8 b

def bytesToBits (l : List Nat) : List Bool := l.flatMap byteBits

/-- The logical bit stream a `NALBitReader` over the NAL payload (after the
two-byte NAL-unit header) delivers. -/
def nalPayloadBits (nal : List Nat) : List Bool :=
  bytesToBits (rbspDeescape (nal.drop 2))

def kMaxShortTermRefPicSets : Nat := 64

/-- The `StRefPicSet` record of HEVCNalParser.cpp.  The C arrays of 64
entries are modelled as total functions (the parser's own bounds checks keep
the used indices in range; out-of-range writes in C++ would be undefined
behaviour). -/
structure StRefPicSet where
  numNegativePics : Int
  numPositivePics : Int
  deltaPocS0 : Nat → Int
  deltaPocS1 : Nat → Int
  numDeltaPocs : Int

def zeroStRefPicSet : StRefPicSet := ⟨0, 0, fun _ => 0, fun _ => 0, 0⟩

def updateFn (f : Nat → Int) (i : Nat) (v : Int) : Nat → Int :=
  fun k => if k = i then v else f k

/-- `skipProfileTierLevel`'s per-sublayer flag-pair reading loop. -/
def readFlagPairs : Nat → List Bool → Option (List (Nat × Nat) × List Bool)
  | 0, bs => some ([], bs)
  | n + 1, bs =>
    match getBitsG 1 bs with
    | none => none
    | some (p, bs) =>
      match getBitsG 1 bs with
      | none => none
      | some (l, bs) =>
        match readFlagPairs n bs with
        | none => none
        | some (rest, bs) => some ((p, l) :: rest, bs)

/-- `skipProfileTierLevel` from HEVCNalParser.cpp: skip the 96 fixed bits,
fail if `spsMaxSublayersMinus1 > 6`, read the per-sublayer present flags,
skip the reserved pad bits, then skip the per-sublayer profile/level data. -/
def skipProfileTierLevel (spsMaxSublayersMinus1 : Nat) (bs : List Bool) :
    Option (List Bool) :=
  let bs := skipBits 96 bs
  if spsMaxSublayersMinus1 > 6 then none
  else
    match readFlagPairs spsMaxSublayersMinus1 bs with
    | none => none
    | some (flags, bs) =>
      let bs := if spsMaxSublayersMinus1 > 0
                then skipBits (2 * (8 - spsMaxSublayersMinus1)) bs else bs
      some (flags.foldl
        (fun bs pl =>
          let bs := if pl.1 ≠ 0 then skipBits 88 bs else bs
          if pl.2 ≠ 0 then skipBits 8 bs else bs) bs)

/-- `n` consecutive result-ignored `parseUE` calls. -/
def iterIgnore : Nat → List Bool → List Bool
  | 0, bs => bs
  | n + 1, bs => iterIgnore n (parseUEIgnore bs)

/-- One `matrixId` iteration of `skipScalingListData`. -/
def scalingListEntry (sizeId : Nat) (bs : List Bool) : Option (List Bool) :=
  match getBitsG 1 bs with
  | none => none
  | some (flag, bs) =>
    if flag = 0 then some (parseUEIgnore bs)
    else
      let bs := if sizeId > 1 then parseUEIgnore bs else bs
      let coefNum := min 64 (2 ^ (4 + 2 * sizeId))
      some (iterIgnore coefNum bs)

def repeatOptM (f : List Bool → Option (List Bool)) :
    Nat → List Bool → Option (List Bool)
  | 0, bs => some bs
  | n + 1, bs =>
    match f bs with
    | none => none
    | some bs => repeatOptM f n bs

/-- `skipScalingListData`: `sizeId` 0..2 each have six `matrixId` iterations,
`sizeId` 3 has two (`matrixId += 3`). -/
def skipScalingListData (bs : List Bool) : Option (List Bool) :=
  match repeatOptM (scalingListEntry 0) 6 bs with
  | none => none
  | some bs =>
    match repeatOptM (scalingListEntry 1) 6 bs with
    | none => none
    | some bs =>
      match repeatOptM (scalingListEntry 2) 6 bs with
      | none => none
      | some bs => repeatOptM (scalingListEntry 3) 2 bs

/-- The `j = 0 .. refSet.numDeltaPocs` loop of the inter-prediction branch of
`skipStRefPicSet`: `useDeltaFlag` defaults to 1 and is only read when
`used_by_curr_pic_flag` is 0. -/
def readUseDeltaFlags : Nat → Nat → (Nat → Nat) → List Bool →
    Option ((Nat → Nat) × List Bool)
  | 0, _, f, bs => some (f, bs)
  | n + 1, j, f, bs =>
    match getBitsG 1 bs with
    | none => none
    | some (used, bs) =>
      if used = 0 then
        match getBitsG 1 bs with
        | none => none
        | some (v, bs) =>
          readUseDeltaFlags n (j + 1) (fun i => if i = j then v else f i) bs
      else readUseDeltaFlags n (j + 1) f bs

/-- A conditional-append fold shared by the four delta-POC accumulation loops
of the inter-prediction branch: for each `j` in order, if `cond j` holds
write `val j` at the running index and advance it. -/
def pocFold (js : List Nat) (val : Nat → Int) (cond : Nat → Bool)
    (st : (Nat → Int) × Nat) : (Nat → Int) × Nat :=
  js.foldl (fun st j =>
    if cond j then (updateFn st.1 st.2 (val j), st.2 + 1) else st) st

/-- The `num_negative_pics` / `num_positive_pics` direct-read branch loops:
read `n` delta-POC values accumulating differences (`neg = true` for the
`deltaPocS0` loop), skipping the `used_by_curr_pic` bit after each. -/
def readDeltaPocs (neg : Bool) : Nat → Nat → (Nat → Int) → List Bool →
    Option ((Nat → Int) × List Bool)
  | 0, _, arr, bs => some (arr, bs)
  | n + 1, i, arr, bs =>
    match parseUE bs with
    | none => none
    | some (d, bs) =>
      let step : Int := toInt32 d + 1
      let v : Int :=
        if neg then (if i = 0 then -step else arr (i - 1) - step)
        else (if i = 0 then step else arr (i - 1) + step)
      readDeltaPocs neg n (i + 1) (updateFn arr i v) (skipBits 1 bs)

/-- `skipStRefPicSet` from HEVCNalParser.cpp. -/
def skipStRefPicSet (stRpsIdx numShortTermRefPicSets : Nat)
    (allRefPicSets : Nat → StRefPicSet) (bs : List Bool) :
    Option (StRefPicSet × List Bool) :=
  let flagStep : Option (Nat × List Bool) :=
    if stRpsIdx ≠ 0 then getBitsG 1 bs else some (0, bs)
  match flagStep with
  | none => none
  | some (interRefPicSetPredictionFlag, bs) =>
    if interRefPicSetPredictionFlag ≠ 0 then
      let deltaStep : Option (Nat × List Bool) :=
        if stRpsIdx = numShortTermRefPicSets then
          match parseUE bs with
          | none => none
          | some (d, bs) =>
            if (d + 1) % 2 ^ 32 > stRpsIdx then none else some (d, bs)
        else some (0, bs)
      match deltaStep with
      | none => none
      | some (deltaIdxMinus1, bs) =>
        let refRpsIdx : Int := (stRpsIdx : Int) - (toInt32 deltaIdxMinus1 + 1)
        match getBitsG 1 bs with
        | none => none
        | some (deltaRpsSign, bs) =>
          match parseUE bs with
          | none => none
          | some (absDeltaRpsMinus1, bs) =>
            let deltaRps : Int :=
              (1 - 2 * (deltaRpsSign : Int)) * (toInt32 absDeltaRpsMinus1 + 1)
            let refSet := allRefPicSets refRpsIdx.toNat
            match readUseDeltaFlags (refSet.numDeltaPocs + 1).toNat 0
                (fun _ => 1) bs with
            | none => none
            | some (useDeltaFlag, bs) =>
              let numNeg := refSet.numNegativePics.toNat
              let numPos := refSet.numPositivePics.toNat
              let s0a := pocFold ((List.range numPos).reverse)
                  (fun j => refSet.deltaPocS1 j + deltaRps)
                  (fun j => decide (refSet.deltaPocS1 j + deltaRps < 0) &&
                    decide (useDeltaFlag (numNeg + j) ≠ 0))
                  (fun _ => 0, 0)
              let s0b :=
                if deltaRps < 0 ∧ useDeltaFlag refSet.numDeltaPocs.toNat ≠ 0
                then (updateFn s0a.1 s0a.2 deltaRps, s0a.2 + 1) else s0a
              let s0c := pocFold (List.range numNeg)
                  (fun j => refSet.deltaPocS0 j + deltaRps)
                  (fun j => decide (refSet.deltaPocS0 j + deltaRps < 0) &&
                    decide (useDeltaFlag j ≠ 0)) s0b
              let numNegativePics : Int := (s0c.2 : Int)
              let s1a := pocFold ((List.range numNeg).reverse)
                  (fun j => refSet.deltaPocS0 j + deltaRps)
                  (fun j => decide (refSet.deltaPocS0 j + deltaRps > 0) &&
                    decide (useDeltaFlag j ≠ 0))
                  (fun _ => 0, 0)
              let s1b :=
                if deltaRps > 0 ∧ useDeltaFlag refSet.numDeltaPocs.toNat ≠ 0
                then (updateFn s1a.1 s1a.2 deltaRps, s1a.2 + 1) else s1a
              let s1c := pocFold (List.range numPos)
                  (fun j => refSet.deltaPocS1 j + deltaRps)
                  (fun j => decide (refSet.deltaPocS1 j + deltaRps > 0) &&
                    decide (useDeltaFlag (numNeg + j) ≠ 0)) s1b
              let numPositivePics : Int := (s1c.2 : Int)
              let cur : StRefPicSet :=
                ⟨numNegativePics, numPositivePics, s0c.1, s1c.1,
                  numNegativePics + numPositivePics⟩
              if toUInt32OfInt cur.numDeltaPocs > kMaxShortTermRefPicSets
              then none else some (cur, bs)
    else
      match parseUE bs with
      | none => none
      | some (u0, bs) =>
        match parseUE bs with
        | none => none
        | some (u1, bs) =>
          let numNegativePics : Int := toInt32 u0
          let numPositivePics : Int := toInt32 u1
          if toUInt32OfInt numNegativePics > kMaxShortTermRefPicSets ∨
             toUInt32OfInt numPositivePics > kMaxShortTermRefPicSets then none
          else
            match readDeltaPocs true numNegativePics.toNat 0 (fun _ => 0) bs with
            | none => none
            | some (s0, bs) =>
              match readDeltaPocs false numPositivePics.toNat 0 (fun _ => 0) bs with
              | none => none
              | some (s1, bs) =>
                let cur : StRefPicSet :=
                  ⟨numNegativePics, numPositivePics, s0, s1,
                    numNegativePics + numPositivePics⟩
                if toUInt32OfInt cur.numDeltaPocs > kMaxShortTermRefPicSets
                then none else some (cur, bs)

/-- The `for (i = 0; i < numShortTermRefPicSets; ++i)` loop around
`skipStRefPicSet` (the parsed set is stored into `allRefPicSets[i]`). -/
def stRpsLoop : Nat → Nat → Nat → (Nat → StRefPicSet) → List Bool →
    Option ((Nat → StRefPicSet) × List Bool)
  | 0, _, _, all, bs => some (all, bs)
  | n + 1, i, num, all, bs =>
    match skipStRefPicSet i num all bs with
    | none => none
    | some (cur, bs) =>
      stRpsLoop n (i + 1) num (fun k => if k = i then cur else all k) bs

/-- The `num_long_term_ref_pics_sps` loop: each entry reads
`log2MaxPicOrderCntLsbMinus4 + 4` bits then one flag bit. -/
def ltRefPicsLoop (log2MaxPicOrderCntLsbMinus4 : Nat) :
    Nat → List Bool → Option (List Bool)
  | 0, bs => some bs
  | n + 1, bs =>
    match getBitsG ((log2MaxPicOrderCntLsbMinus4 + 4) % 2 ^ 32) bs with
    | none => none
    | some (_, bs) =>
      match getBitsG 1 bs with
      | none => none
      | some (_, bs) => ltRefPicsLoop log2MaxPicOrderCntLsbMinus4 n bs

/-- Reading `sps_max_sublayers_minus1`: skip the 4-bit
`sps_video_parameter_set_id`, then read 3 bits. -/
def hevcReadMaxSublayers (bs : List Bool) : Option (Nat × List Bool) :=
  getBitsG 3 (skipBits 4 bs)

/-- `findCodedColorAspects` from after `skipProfileTierLevel` up to and
including the `num_short_term_ref_pic_sets` field, returning
(`log2_max_pic_order_cnt_lsb_minus4`, `num_short_term_ref_pic_sets`, rest).
Fields whose `parseUE` return value the C++ code ignores advance the reader
without failing the parse. -/
def hevcParseToNumStRps (spsMaxSublayersMinus1 : Nat) (bs : List Bool) :
    Option (Nat × Nat × List Bool) :=
  let bs := parseUEIgnore bs  -- sps_seq_parameter_set_id
  match parseUE bs with  -- chroma_format_idc
  | none => none
  | some (chromaFormatIdc, bs) =>
    let bs := if chromaFormatIdc = 3 then skipBits 1 bs else bs
    let bs := parseUEIgnore bs  -- pic_width_in_luma_samples
    let bs := parseUEIgnore bs  -- pic_height_in_luma_samples
    match getBitsG 1 bs with  -- conformance_window_flag
    | none => none
    | some (conformanceWindowFlag, bs) =>
      let bs := if conformanceWindowFlag ≠ 0 then iterIgnore 4 bs else bs
      let bs := iterIgnore 2 bs  -- bit depths
      match parseUE bs with  -- log2_max_pic_order_cnt_lsb_minus4
      | none => none
      | some (log2MaxPicOrderCntLsbMinus4, bs) =>
        match getBitsG 1 bs with  -- sps_sub_layer_ordering_info_present_flag
        | none => none
        | some (orderingInfoPresent, bs) =>
          let iters := if orderingInfoPresent ≠ 0
                       then spsMaxSublayersMinus1 + 1 else 1
          let bs := iterIgnore (3 * iters) bs
          let bs := iterIgnore 6 bs  -- coding-block parameters
          match getBitsG 1 bs with  -- scaling_list_enabled_flag
          | none => none
          | some (scalingListEnabled, bs) =>
            let scalingStep : Option (List Bool) :=
              if scalingListEnabled ≠ 0 then
                match getBitsG 1 bs with
                | none => none
                | some (present, bs) =>
                  if present ≠ 0 then skipScalingListData bs else some bs
              else some bs
            match scalingStep with
            | none => none
            | some bs =>
              let bs := skipBits 2 bs  -- amp, sample_adaptive_offset
              match getBitsG 1 bs with  -- pcm_enabled_flag
              | none => none
              | some (pcmEnabled, bs) =>
                let bs := if pcmEnabled ≠ 0
                          then skipBits 1 (iterIgnore 2 (skipBits 8 bs)) else bs
                match parseUE bs with  -- num_short_term_ref_pic_sets
                | none => none
                | some (numShortTermRefPicSets, bs) =>
                  some (log2MaxPicOrderCntLsbMinus4, numShortTermRefPicSets, bs)

/-- The tail of `findCodedColorAspects` after the short-term reference
picture sets: long-term sets, two fixed bits, then the VUI walk extracting
the colour aspects. -/
def hevcParseVuiTail (log2MaxPicOrderCntLsbMinus4 : Nat) (bs : List Bool) :
    Option ColorAspects :=
  match getBitsG 1 bs with  -- long_term_ref_pics_present_flag
  | none => none
  | some (longTermPresent, bs) =>
    let ltStep : Option (List Bool) :=
      if longTermPresent ≠ 0 then
        match parseUE bs with
        | none => none
        | some (numLt, bs) => ltRefPicsLoop log2MaxPicOrderCntLsbMinus4 numLt bs
      else some bs
    match ltStep with
    | none => none
    | some bs =>
      let bs := skipBits 2 bs  -- temporal_mvp, strong_intra_smoothing
      match getBitsG 1 bs with  -- vui_parameters_present_flag
      | none => none
      | some (vuiPresent, bs) =>
        if vuiPresent = 0 then none
        else
          match getBitsG 1 bs with  -- aspect_ratio_info_present_flag
          | none => none
          | some (aspectPresent, bs) =>
            let aspectStep : Option (List Bool) :=
              if aspectPresent ≠ 0 then
                match getBitsG 8 bs with
                | none => none
                | some (idc, bs) =>
                  some (if idc = 255 then skipBits 32 bs else bs)
              else some bs
            match aspectStep with
            | none => none
            | some bs =>
              match getBitsG 1 bs with  -- overscan_info_present_flag
              | none => none
              | some (overscanPresent, bs) =>
                let bs := if overscanPresent ≠ 0 then skipBits 1 bs else bs
                match getBitsG 1 bs with  -- video_signal_type_present_flag
                | none => none
                | some (videoSignalPresent, bs) =>
                  if videoSignalPresent = 0 then none
                  else
                    let bs := skipBits 3 bs  -- video_format
                    match getBitsG 1 bs with  -- video_full_range_flag
                    | none => none
                    | some (fullRange, bs) =>
                      match getBitsG 1 bs with  -- colour_description_present
                      | none => none
                      | some (colorDescPresent, bs) =>
                        if colorDescPresent = 0 then none
                        else
                          match getBitsG 8 bs with
                          | none => none
                          | some (primaries, bs) =>
                            match getBitsG 8 bs with
                            | none => none
                            | some (transfer, bs) =>
                              match getBitsG 8 bs with
                              | none => none
                              | some (coeffs, _) =>
                                some ⟨primaries, transfer, coeffs,
                                  fullRange ≠ 0⟩

/-- `HEVCNalParser::findCodedColorAspects` on the bit stream delivered by the
`NALBitReader`: `none` models returning `false`. -/
def hevcFindColorAspectsBits (bs : List Bool) : Option ColorAspects :=
  match hevcReadMaxSublayers bs with
  | none => none
  | some (spsMaxSublayersMinus1, bs) =>
    let bs := skipBits 1 bs  -- sps_temporal_id_nesting_flag
    match skipProfileTierLevel spsMaxSublayersMinus1 bs with
    | none => none
    | some bs =>
      match hevcParseToNumStRps spsMaxSublayersMinus1 bs with
      | none => none
      | some (log2MaxPicOrderCntLsbMinus4, numShortTermRefPicSets, bs) =>
        if numShortTermRefPicSets > kMaxShortTermRefPicSets then none
        else
          match stRpsLoop numShortTermRefPicSets 0 numShortTermRefPicSets
              (fun _ => zeroStRefPicSet) bs with
          | none => none
          | some (_, bs) => hevcParseVuiTail log2MaxPicOrderCntLsbMinus4 bs

/-- `HEVCNalParser::findCodedColorAspects` on the NAL bytes: returns `false`
(`none`) immediately if the NAL is not longer than the two-byte header,
otherwise parses the emulation-prevention-stripped payload. -/
def hevcFindCodedColorAspects (nal : List Nat) : Option ColorAspects :=
  if nal.length ≤ 2 then none
  else hevcFindColorAspectsBits (nalPayloadBits nal)

/-- The value of the 3-bit `sps_max_sublayers_minus1` field of an SPS NAL as
the parser reads it (`none` when the parse does not even reach it). -/
def hevcSpsMaxSublayersMinus1 (nal : List Nat) : Option Nat :=
  if nal.length ≤ 2 then none
  else
    match hevcReadMaxSublayers (nalPayloadBits nal) with
    | none => none
    | some (msl, _) => some msl

/-- The value of the `num_short_term_ref_pic_sets` field of an SPS NAL as the
parser reads it (`none` when the parse does not reach it). -/
def hevcSpsNumStRps (nal : List Nat) : Option Nat :=
  if nal.length ≤ 2 then none
  else
    match hevcReadMaxSublayers (nalPayloadBits nal) with
    | none => none
    | some (msl, bs) =>
      match skipProfileTierLevel msl (skipBits 1 bs) with
      | none => none
      | some bs =>
        match hevcParseToNumStRps msl bs with
        | none => none
        | some (_, n, _) => some n

/-! ### VideoFramePool fetch retry (VideoFramePool.cpp)

`VideoFramePool::getVideoFrameTask` fetches a graphic block and, on
`C2_TIMED_OUT`/`C2_BLOCKING`, reschedules itself after an exponentially
growing delay.  The task is modelled as a function of the pool bookkeeping
state and of an environment recording the outcomes of the external calls
(`fetchGraphicBlock`, the fence wait, the legacy fetch, the buffer-id
extraction and `VideoFrame::Create`). -/

inductive C2Status
  | ok
  | timedOut
  | blocking
  | omitted
  | other
deriving DecidableEq

def kFetchRetryDelayInit : Nat := 256
def kFetchRetryDelayMax : Nat := 16384

structure PoolState where
  sDelay : Nat
  sNumRetries : Nat
  buffers : List Nat
  maxBufferCount : Nat
deriving DecidableEq

structure FetchEnv where
  fetchErr : C2Status
  fenceReady : Bool
  fenceWaitErr : C2Status
  legacyErr : C2Status
  bufferId : Option Nat
  frameOk : Bool
deriving DecidableEq

inductive FetchEffect
  | retryImmediate
  | retryAfter (delayUs : Nat)
  | failed (err : C2Status)
  | deliver (frameWithBlockId : Option Nat)
deriving DecidableEq

/-- `VideoFramePool::shouldDropBuffer`. -/
def shouldDropBuffer (s : PoolState) (bufferId : Nat) : Bool :=
  if s.buffers.length < s.maxBufferCount then false
  else if bufferId ∈ s.buffers then false
  else true

/-- Whether the `C2_BLOCKING`-with-fence path retries immediately: the fence
was not already ready and waiting on it succeeded. -/
def fenceRetry (env : FetchEnv) : Bool :=
  env.fetchErr = .blocking && !env.fenceReady && env.fenceWaitErr = .ok

/-- The status after the fence/legacy handling: a failed fence wait replaces
the error, `C2_OMITTED` falls back to the legacy fetch. -/
def resolvedErr (env : FetchEnv) : C2Status :=
  if env.fetchErr = .blocking ∧ !env.fenceReady then env.fenceWaitErr
  else if env.fetchErr = .omitted then env.legacyErr
  else env.fetchErr

/-- The buffer id and status after the `shouldDropBuffer` step: a fetched
buffer beyond the needed count is dropped and the status becomes
`C2_TIMED_OUT`. -/
def finalIdErr (s : PoolState) (env : FetchEnv) : Option Nat × C2Status :=
  if resolvedErr env = .ok then
    match env.bufferId with
    | some id =>
      if shouldDropBuffer s id then (none, .timedOut) else (some id, .ok)
    | none => (none, .ok)
  else (none, resolvedErr env)

/-- `VideoFramePool::getVideoFrameTask`. -/
def getVideoFrameTask (s : PoolState) (env : FetchEnv) :
    PoolState × FetchEffect :=
  if fenceRetry env then (s, .retryImmediate)
  else
    let (bufferId, err) := finalIdErr s env
    if err = .timedOut ∨ err = .blocking then
      ({ s with sDelay := min (s.sDelay * 4) kFetchRetryDelayMax,
                sNumRetries := s.sNumRetries + 1 },
       .retryAfter s.sDelay)
    else
      let s1 := { s with sDelay := kFetchRetryDelayInit, sNumRetries := 0 }
      if err ≠ .ok then (s1, .failed err)
      else
        match bufferId, env.frameOk with
        | some id, true =>
          ({ s1 with buffers := if id ∈ s1.buffers then s1.buffers
                                else id :: s1.buffers },
           .deliver (some id))
        | _, _ => (s1, .deliver none)

/-! ### V4L2Decoder (V4L2Decoder.cpp)

The decoder state machine.  Kernel and pool interactions are modelled by an
environment recording the outcomes of the external calls; callback
invocations are collected as `(callback id, status)` events (the source posts
some of them as tasks and runs others inline — either way each is invoked
exactly once).  `onError` additionally runs the component's error callback,
which is not tracked here. -/

inductive DState
  | Idle
  | Decoding
  | Draining
  | Error
deriving DecidableEq

inductive DecodeStatus
  | kOk
  | kAborted
  | kError
deriving DecidableEq

/-- `V4L2Decoder::setState`: no-op on an equal state or from `Error`;
a `Draining` request from a state other than `Decoding` becomes `Error`. -/
def setState (cur new : DState) : DState :=
  if cur = new then cur
  else if cur = .Error then cur
  else
    match new with
    | .Draining => if cur ≠ .Decoding then .Error else .Draining
    | x => x

/-- A `ConstBitstreamBuffer`: bitstream id, plane data offset, bitstream
size, the mapped payload bytes, and the DMA-buffer id of its handle
(`getDmabufId` can fail). -/
structure BitstreamBuffer where
  id : Int
  offset : Nat
  size : Nat
  payload : List Nat
  dmaId : Option Nat
deriving DecidableEq

/-- A queued `DecodeRequest`: a drain request has no buffer. -/
structure DecodeRequest where
  buffer : Option BitstreamBuffer
  cb : Nat
deriving DecidableEq

structure Decoder where
  state : DState
  requests : List DecodeRequest
  pendingCbs : List (Int × Nat)
  drainCb : Option Nat
  initialEosBuffer : Bool
  pendingDRC : Bool
  isSecure : Bool
  codec : VideoCodec
  inputQueued : Nat

/-- Environment of one `pumpDecodeRequest` invocation: whether the output
queue is streaming, the free input buffers the queue hands out (in order),
with their plane sizes, and the outcomes of `queueDMABuf` and of the STOP
decoder command. -/
structure PumpEnv where
  outputStreaming : Bool
  freeInputBuffers : List (Nat × Nat)
  queueOk : Bool
  sendCmdOk : Bool

/-- Result of a decoder operation: the new decoder, the callback events, the
`(from, to)` pairs of every effective `setState` transition, whether a STOP
decoder command was issued, and the `(bitstream id, data offset, bytes used)`
of every buffer queued to the kernel input queue. -/
structure OpResult where
  dec : Decoder
  events : List (Nat × DecodeStatus)
  stateTrace : List (DState × DState)
  stopSent : Bool
  queued : List (Int × Nat × Nat)

/-- Apply `setState`, recording the transition when the state changes. -/
def applySetState (d : Decoder) (new : DState) :
    Decoder × List (DState × DState) :=
  let s' := setState d.state new
  ({ d with state := s' }, if s' ≠ d.state then [(d.state, s')] else [])

/-- `V4L2Decoder::onError`: `setState(State::Error)` plus the (untracked)
error callback. -/
def onErrorStep (d : Decoder) : Decoder × List (DState × DState) :=
  applySetState d .Error

/-- The `while (!mDecodeRequests.empty())` loop of
`V4L2Decoder::pumpDecodeRequest`.  The input-slot bookkeeping
(`mLastDmaBufferId`, `mNextInputBufferId`) only selects which free V4L2
buffer is used; the environment supplies the successive free buffers
directly. -/
def pumpLoop (env : PumpEnv) (reqs : List DecodeRequest) (d : Decoder)
    (free : List (Nat × Nat)) (evs : List (Nat × DecodeStatus))
    (tr : List (DState × DState)) (stop : Bool)
    (q : List (Int × Nat × Nat)) : OpResult :=
  match reqs with
  | [] => ⟨d, evs, tr, stop, q⟩
  | req :: rest =>
    match req.buffer with
    | none =>
      -- drain request
      if d.inputQueued > 0 then ⟨d, evs, tr, stop, q⟩
      else if !env.outputStreaming then ⟨d, evs, tr, stop, q⟩
      else
        let d1 := { d with requests := rest }
        if d1.initialEosBuffer ∧ ¬d1.pendingDRC then
          ⟨d1, evs ++ [(req.cb, .kOk)], tr, stop, q⟩
        else if !env.sendCmdOk then
          let (d2, tr') := onErrorStep d1
          ⟨d2, evs ++ [(req.cb, .kError)], tr ++ tr', true, q⟩
        else
          let (d2, tr') := applySetState { d1 with drainCb := some req.cb } .Draining
          ⟨d2, evs, tr ++ tr', true, q⟩
    | some buf =>
      match buf.dmaId with
      | none =>
        let (d1, tr') := onErrorStep d
        ⟨d1, evs, tr ++ tr', stop, q⟩
      | some _ =>
        match free with
        | [] => ⟨d, evs, tr, stop, q⟩  -- no free input buffer, pause
        | (_, planeSize) :: freeRest =>
          if buf.size > planeSize then
            let (d1, tr') := onErrorStep { d with requests := rest }
            ⟨d1, evs, tr ++ tr', stop, q⟩
          else if !env.queueOk then
            let (d1, tr') := onErrorStep { d with requests := rest }
            ⟨d1, evs, tr ++ tr', stop, q⟩
          else
            pumpLoop env rest
              { d with
                requests := rest
                pendingCbs := if d.pendingCbs.any (fun p => p.1 = buf.id)
                              then d.pendingCbs
                              else d.pendingCbs ++ [(buf.id, req.cb)]
                inputQueued := d.inputQueued + 1 }
              freeRest evs tr stop
              (q ++ [(buf.id, buf.offset, buf.offset + buf.size)])

/-- `V4L2Decoder::pumpDecodeRequest`: returns immediately unless the state
is `Decoding` (`pumpLoop` walks the request queue, which is `d.requests` at
entry and stays in sync with the decoder's queue as requests are popped). -/
def pumpDecodeRequest (d : Decoder) (env : PumpEnv) : OpResult :=
  if d.state ≠ .Decoding then ⟨d, [], [], false, []⟩
  else pumpLoop env d.requests d env.freeInputBuffers [] [] false []

/-- `V4L2Decoder::decode`. -/
def decode (d : Decoder) (buf : BitstreamBuffer) (cb : Nat) (env : PumpEnv) :
    OpResult :=
  if d.state = .Error then ⟨d, [(cb, .kError)], [], false, []⟩
  else
    let (d, tr) := if d.state = .Idle then applySetState d .Decoding else (d, [])
    let d := if ¬d.isSecure ∧ d.initialEosBuffer ∧ ¬d.pendingDRC
             then { d with pendingDRC := waitForDRC d.codec buf.payload } else d
    let d := { d with requests := d.requests ++ [⟨some buf, cb⟩] }
    let r := pumpDecodeRequest d env
    { r with stateTrace := tr ++ r.stateTrace }

/-- `V4L2Decoder::drain`. -/
def drain (d : Decoder) (cb : Nat) (env : PumpEnv) : OpResult :=
  match d.state with
  | .Idle => ⟨d, [(cb, .kOk)], [], false, []⟩
  | .Decoding =>
    pumpDecodeRequest { d with requests := d.requests ++ [⟨none, cb⟩] } env
  | .Draining => ⟨d, [(cb, .kError)], [], false, []⟩
  | .Error => ⟨d, [(cb, .kError)], [], false, []⟩

/-- `V4L2Decoder::flush` (`pollOk` is the outcome of restarting the device
poller): outside `Idle`/`Error`, abort every pending decode callback, clear
the map, abort and disarm the drain callback, stream off/on (dropping the
queued input buffers), and return to `Idle` — or to `Error` when restarting
polling fails. -/
def flush (d : Decoder) (pollOk : Bool) : OpResult :=
  if d.state = .Idle then ⟨d, [], [], false, []⟩
  else if d.state = .Error then ⟨d, [], [], false, []⟩
  else
    let evs := d.pendingCbs.map (fun p => (p.2, DecodeStatus.kAborted))
    let evs := evs ++ (match d.drainCb with
      | some cb => [(cb, DecodeStatus.kAborted)]
      | none => [])
    let d := { d with pendingCbs := [], drainCb := none, inputQueued := 0 }
    if pollOk then
      let (d, tr) := applySetState d .Idle
      ⟨d, evs, tr, false, []⟩
    else
      let (d, tr) := onErrorStep d
      ⟨d, evs, tr, false, []⟩

/-- The drain-completion step of `V4L2Decoder::serviceDeviceTask`: on an
output buffer with the LAST flag while a drain callback is armed, send START
(result ignored by the source), run the drain callback with OK, and set the
state to `Idle`. -/
def serviceDrainDone (d : Decoder) : OpResult :=
  match d.drainCb with
  | none => ⟨d, [], [], false, []⟩
  | some cb =>
    let (d', tr) := applySetState { d with drainCb := none } .Idle
    ⟨d', [(cb, .kOk)], tr, false, []⟩

/-- A dequeue/event failure inside `serviceDeviceTask`, a failure inside
`tryFetchVideoFrame` / `onVideoFrameReady`, or the device poller's error
callback: all invoke `V4L2Decoder::onError` directly, in whatever state the
decoder is in. -/
def serviceError (d : Decoder) : OpResult :=
  let (d, tr) := onErrorStep d
  ⟨d, [], tr, false, []⟩

/-- The decoder operations, with the environment outcomes they depend on. -/
inductive DecoderOp
  | opDecode (buf : BitstreamBuffer) (cb : Nat) (env : PumpEnv)
  | opDrain (cb : Nat) (env : PumpEnv)
  | opPump (env : PumpEnv)
  | opFlush (pollOk : Bool)
  | opServiceDrainDone
  | opServiceError

def applyOp (op : DecoderOp) (d : Decoder) : OpResult :=
  match op with
  | .opDecode buf cb env => decode d buf cb env
  | .opDrain cb env => drain d cb env
  | .opPump env => pumpDecodeRequest d env
  | .opFlush pollOk => flush d pollOk
  | .opServiceDrainDone => serviceDrainDone d
  | .opServiceError => serviceError d

/-- The transition relation stated by the spec ("Idle→Decoding→{Idle,
Draining, Error}; Draining→{Idle, Error}; Error is absorbing"), as the set
of allowed state *changes*. -/
def specStateRel (a b : DState) : Bool :=
  match a, b with
  | .Idle, .Decoding => true
  | .Decoding, .Idle => true
  | .Decoding, .Draining => true
  | .Decoding, .Error => true
  | .Draining, .Idle => true
  | .Draining, .Error => true
  | _, _ => false

/-- The transition relation the code actually follows: the spec's relation
plus `Idle→Error` (`onError` can fire in `Idle`, e.g. from the device
poller's error callback). -/
def codeStateRel (a b : DState) : Bool :=
  specStateRel a b || (a = .Idle && b = .Error)

/-! ### getVisibleRect (V4L2Decoder.cpp) -/

/-- An `android::Rect` (int32 edges). -/
structure ARect where
  left : Int
  top : Int
  right : Int
  bottom : Int
deriving DecidableEq

/-- A `v4l2_rect` as returned by `VIDIOC_G_SELECTION` / `VIDIOC_G_CROP`:
`left`/`top` are `__s32`, `width`/`height` are `__u32`. -/
structure V4L2Rect where
  left : Int
  top : Int
  width : Nat
  height : Nat
deriving DecidableEq

/-- Reduce an integer into `int32_t` range (two's complement wrap), as the
implementation-defined narrowing conversions in the source do. -/
def wrapS32 (n : Int) : Int := (n + 2 ^ 31) % 2 ^ 32 - 2 ^ 31

/-- `Rect rect(left, top, left + width, top + height)` built from the kernel
rectangle: `left + width` is `int + uint32` arithmetic (wrapping), narrowed
into the int32 `Rect` fields. -/
def rectOfV4L2 (r : V4L2Rect) : ARect :=
  ⟨wrapS32 r.left, wrapS32 r.top, wrapS32 (r.left + r.width),
    wrapS32 (r.top + r.height)⟩

/-- `Rect(width, height)`: the rectangle `(0, 0, width, height)`. -/
def codedRect (w h : Int) : ARect := ⟨0, 0, wrapS32 w, wrapS32 h⟩

/-- `contains` from Common.cpp. -/
def rectContains (r1 r2 : ARect) : Bool :=
  decide (r2.left ≥ r1.left) && decide (r2.right ≤ r1.right) &&
  decide (r2.top ≥ r1.top) && decide (r2.bottom ≤ r1.bottom)

/-- `android::Rect::isEmpty()`: zero or negative width or height. -/
def rectIsEmpty (r : ARect) : Bool :=
  decide (r.right - r.left ≤ 0) || decide (r.bottom - r.top ≤ 0)

/-- The kernel rectangle used by `getVisibleRect`: the `VIDIOC_G_SELECTION`
result if that ioctl succeeds, else the `VIDIOC_G_CROP` result, else none. -/
def visibleRectQuery (sel crop : Option V4L2Rect) : Option V4L2Rect :=
  match sel with
  | some r => some r
  | none => crop

/-- `V4L2Decoder::getVisibleRect`: on query failure, or when the kernel
rectangle is not inside the coded size or is empty, substitute
`Rect(codedSize.width, codedSize.height)`. -/
def getVisibleRect (codedW codedH : Int) (sel crop : Option V4L2Rect) : ARect :=
  match visibleRectQuery sel crop with
  | none => codedRect codedW codedH
  | some vr =>
    let rect := rectOfV4L2 vr
    if !rectContains (codedRect codedW codedH) rect then codedRect codedW codedH
    else if rectIsEmpty rect then codedRect codedW codedH
    else rect

/-! ## Theorems -/

/-! ### Helper lemmas: bit strings and Exp-Golomb codes -/

theorem bitsToNat_foldl (x : Nat) (b : List Bool) :
    b.foldl (fun a c => 2 * a + (if c then 1 else 0)) x =
      x * 2 ^ b.length + bitsToNat b := by
  induction b generalizing x with
  | nil =>
    show x = x * 2 ^ 0 + 0
    omega
  | cons hd tl ih =>
    have h2 : bitsToNat (hd :: tl) =
        (2 * 0 + (if hd then 1 else 0)) * 2 ^ tl.length + bitsToNat tl := by
      unfold bitsToNat
      rw [List.foldl_cons]
      exact ih _
    rw [List.foldl_cons, ih, h2, List.length_cons]
    cases hd <;> simp [pow_succ] <;> ring

theorem bitsToNat_append (a b : List Bool) :
    bitsToNat (a ++ b) = bitsToNat a * 2 ^ b.length + bitsToNat b := by
  unfold bitsToNat
  rw [List.foldl_append]
  exact bitsToNat_foldl _ b

theorem bitsToNat_lt (a : List Bool) : bitsToNat a < 2 ^ a.length := by
  induction a with
  | nil => simp [bitsToNat]
  | cons hd tl ih =>
    show List.foldl _ _ _ < _
    rw [List.foldl_cons, bitsToNat_foldl]
    have : (2 * 0 + if hd then 1 else 0) ≤ 1 := by cases hd <;> simp
    calc (2 * 0 + if hd then 1 else 0) * 2 ^ tl.length + bitsToNat tl
        ≤ 1 * 2 ^ tl.length + bitsToNat tl := by
          exact Nat.add_le_add_right (Nat.mul_le_mul_right _ this) _
      _ < 2 ^ (hd :: tl).length := by
          simp only [List.length_cons, pow_succ]
          omega

theorem bitsToNat_natBitsBE (k v : Nat) (h : v < 2 ^ k) :
    bitsToNat (natBitsBE k v) = v := by
  induction k generalizing v with
  | zero => interval_cases v; simp [natBitsBE, bitsToNat]
  | succ k ih =>
    rw [natBitsBE, bitsToNat_append]
    have hv : v / 2 < 2 ^ k := by
      rw [Nat.div_lt_iff_lt_mul (by norm_num)]
      calc v < 2 ^ (k + 1) := h
        _ = 2 ^ k * 2 := by ring
    rw [ih _ hv]
    have hb : bitsToNat [decide (v % 2 = 1)] = v % 2 := by
      rcases Nat.mod_two_eq_zero_or_one v with h2 | h2 <;> simp [h2, bitsToNat]
    rw [hb]
    simp only [List.length_singleton, pow_one]
    omega

theorem natBitsBE_length (k v : Nat) : (natBitsBE k v).length = k := by
  induction k generalizing v with
  | zero => rfl
  | succ k ih => simp [natBitsBE, ih]

theorem countLeadingZeroBits_replicate_append (k : Nat) (r : List Bool) :
    countLeadingZeroBits (List.replicate k false ++ true :: r) = some (k, r) := by
  induction k with
  | zero => simp [countLeadingZeroBits]
  | succ k ih => simp [List.replicate_succ, countLeadingZeroBits, ih]

theorem countLeadingZeroBits_replicate (k : Nat) :
    countLeadingZeroBits (List.replicate k false) = none := by
  induction k with
  | zero => rfl
  | succ k ih => simp [List.replicate_succ, countLeadingZeroBits, ih]

theorem getBitsG_exact (a r : List Bool) (h : a.length ≤ 32) :
    getBitsG a.length (a ++ r) = some (bitsToNat a, r) := by
  unfold getBitsG
  rw [if_neg (by omega), if_pos (by simp)]
  simp [List.take_append, List.drop_append]

theorem log2_add_one_le (x : Nat) (h : x < 2 ^ 32 - 1) :
    Nat.log2 (x + 1) ≤ 31 := by
  have h32 : x + 1 < 2 ^ 32 := by omega
  have := (Nat.log2_lt (by omega : x + 1 ≠ 0)).mpr h32
  omega

theorem encodeUE_parse (x : Nat) (r : List Bool) (h : x < 2 ^ 32 - 1) :
    parseUE (encodeUE x ++ r) = some (x, r) := by
  unfold parseUE parseUECore encodeUE
  have hk := log2_add_one_le x h
  set k := Nat.log2 (x + 1) with hkdef
  have hlow : 2 ^ k ≤ x + 1 := Nat.log2_self_le (by omega)
  have hhigh : x + 1 < 2 ^ (k + 1) := Nat.lt_log2_self
  have hlen : (natBitsBE k (x + 1 - 2 ^ k)).length = k := natBitsBE_length _ _
  rw [List.append_assoc, List.cons_append,
    countLeadingZeroBits_replicate_append]
  have hg : getBitsG k (natBitsBE k (x + 1 - 2 ^ k) ++ r) =
      some (bitsToNat (natBitsBE k (x + 1 - 2 ^ k)), r) := by
    have := getBitsG_exact (natBitsBE k (x + 1 - 2 ^ k)) r (by omega)
    rwa [hlen] at this
  dsimp only
  rw [hg, bitsToNat_natBitsBE k _ (by rw [pow_succ] at hhigh; omega)]
  have heq : x + 1 - 2 ^ k + (2 ^ k - 1) = x := by
    have : 1 ≤ 2 ^ k := Nat.one_le_two_pow
    omega
  dsimp only
  rw [heq, Nat.mod_eq_of_lt (by omega)]

theorem encodeUE_parse_truncated (x n : Nat) (h : x < 2 ^ 32 - 1)
    (hn : n < (encodeUE x).length) : parseUE ((encodeUE x).take n) = none := by
  unfold parseUE parseUECore encodeUE
  have hk := log2_add_one_le x h
  set k := Nat.log2 (x + 1) with hkdef
  unfold encodeUE at hn
  rw [← hkdef] at hn
  simp only [List.length_append, List.length_replicate, List.length_cons,
    natBitsBE_length] at hn
  rw [List.take_append_eq_append_take, List.take_replicate,
    List.length_replicate]
  rcases le_or_lt n k with hnk | hnk
  · rw [min_eq_left hnk, show n - k = 0 by omega]
    simp [countLeadingZeroBits_replicate]
  · rw [min_eq_right (by omega)]
    obtain ⟨m, hm⟩ : ∃ m, n - k = m + 1 := ⟨n - k - 1, by omega⟩
    rw [hm, List.take_cons, countLeadingZeroBits_replicate_append]
    have hlen : ((natBitsBE k (x + 1 - 2 ^ k)).take m).length < k := by
      simp only [List.length_take, natBitsBE_length]
      omega
    have hnone : getBitsG k ((natBitsBE k (x + 1 - 2 ^ k)).take m) = none := by
      unfold getBitsG
      rw [if_neg (by omega), if_neg (by omega)]
    simp only [Nat.add_sub_cancel]
    rw [hnone]
    omega

theorem encodeSE_codeNum_lt (y : Int) (hlo : -2 ^ 31 < y) (hhi : y < 2 ^ 31) :
    (if 0 < y then (2 * y - 1).toNat else (-(2 * y)).toNat) < 2 ^ 32 - 1 := by
  split <;> omega

theorem encodeSE_parse (y : Int) (r : List Bool) (hlo : -2 ^ 31 < y)
    (hhi : y < 2 ^ 31) : parseSE (encodeSE y ++ r) = some (y, r) := by
  unfold parseSE encodeSE
  rw [encodeUE_parse _ r (encodeSE_codeNum_lt y hlo hhi)]
  dsimp only
  rcases lt_or_le 0 y with hy | hy
  · rw [if_pos hy]
    rw [if_pos (by omega : (2 * y - 1).toNat % 2 = 1)]
    rw [Nat.mod_eq_of_lt (by omega : (2 * y - 1).toNat + 1 < 2 ^ 32)]
    rw [show ((2 * y - 1).toNat + 1) / 2 = y.toNat by omega]
    unfold toInt32
    rw [Nat.mod_eq_of_lt (by omega : y.toNat < 2 ^ 32)]
    rw [if_pos (by omega : y.toNat < 2 ^ 31)]
    simp only [Option.some.injEq, Prod.mk.injEq]
    refine ⟨by omega, trivial⟩
  · rw [if_neg (by omega : ¬ 0 < y)]
    rw [if_neg (by omega : ¬ (-(2 * y)).toNat % 2 = 1)]
    rw [show (-(2 * y)).toNat / 2 = (-y).toNat by omega]
    unfold toInt32
    rw [Nat.mod_eq_of_lt (by omega : (-y).toNat < 2 ^ 32)]
    rw [if_pos (by omega : (-y).toNat < 2 ^ 31)]
    simp only [Option.some.injEq, Prod.mk.injEq]
    refine ⟨by omega, trivial⟩

theorem encodeUE_length (x : Nat) :
    (encodeUE x).length = 2 * Nat.log2 (x + 1) + 1 := by
  simp [encodeUE, natBitsBE_length]
  omega

theorem encodeSE_parse_truncated (y : Int) (n : Nat) (hlo : -2 ^ 31 < y)
    (hhi : y < 2 ^ 31) (hn : n < (encodeSE y).length) :
    parseSE ((encodeSE y).take n) = none := by
  unfold parseSE encodeSE
  unfold encodeSE at hn
  rw [encodeUE_parse_truncated _ n (encodeSE_codeNum_lt y hlo hhi) hn]

/-- C7: Exp-Golomb coding round-trips — `parse_ue(encode_ue(x)) = x` for
every `0 ≤ x < 2³² − 1` (followed by any remaining input), and
`parse_se(encode_se(x)) = x` for every `−2³¹ < x < 2³¹`; both parsers fail
(return `false`) when the bit reader runs off the end of the buffer, i.e. on
every strict prefix of a valid code word. -/
theorem C7_exp_golomb_round_trip :
    (∀ (x : Nat) (rest : List Bool), x < 2 ^ 32 - 1 →
      parseUE (encodeUE x ++ rest) = some (x, rest)) ∧
    (∀ (y : Int) (rest : List Bool), -2 ^ 31 < y → y < 2 ^ 31 →
      parseSE (encodeSE y ++ rest) = some (y, rest)) ∧
    (∀ (x n : Nat), x < 2 ^ 32 - 1 → n < (encodeUE x).length →
      parseUE ((encodeUE x).take n) = none) ∧
    (∀ (y : Int) (n : Nat), -2 ^ 31 < y → y < 2 ^ 31 →
      n < (encodeSE y).length → parseSE ((encodeSE y).take n) = none) :=
  ⟨encodeUE_parse, encodeSE_parse, encodeUE_parse_truncated,
    encodeSE_parse_truncated⟩

/-- Witness for C7 at concrete inputs. -/
theorem C7_exp_golomb_round_trip_witness :
    ((5 : Nat) < 2 ^ 32 - 1 ∧ parseUE (encodeUE 5 ++ [true]) = some (5, [true])) ∧
    ((-2 ^ 31 : Int) < -3 ∧ (-3 : Int) < 2 ^ 31 ∧
      parseSE (encodeSE (-3) ++ []) = some (-3, [])) ∧
    ((2 : Nat) < (encodeUE 5).length ∧ parseUE ((encodeUE 5).take 2) = none) ∧
    ((4 : Nat) < (encodeSE (-3)).length ∧ parseSE ((encodeSE (-3)).take 4) = none) := by
  have h5 : (encodeUE 5).length = 5 := by
    rw [encodeUE_length]; norm_num [Nat.log2]
  have h3 : encodeSE (-3) = encodeUE 6 := by norm_num [encodeSE]; rfl
  have h6 : (encodeSE (-3)).length = 5 := by
    rw [h3, encodeUE_length]; norm_num [Nat.log2]
  refine ⟨⟨by norm_num, C7_exp_golomb_round_trip.1 5 [true] (by norm_num)⟩,
    ⟨by norm_num, by norm_num,
      C7_exp_golomb_round_trip.2.1 (-3) [] (by norm_num) (by norm_num)⟩,
    ⟨by omega, C7_exp_golomb_round_trip.2.2.1 5 2 (by norm_num) (by omega)⟩,
    ⟨by omega, C7_exp_golomb_round_trip.2.2.2 (-3) 4 (by norm_num) (by norm_num)
      (by omega)⟩⟩

/-! ### C1: input-buffer sizing -/

/-- Counterexample to C1 as stated: the picture size 2560×1440 has area not
exceeding the 4K area, so the claim predicts the base size (2 MiB), but the
code computes 4×BASE (8 MiB) because its threshold is the 1080p area. -/
theorem C1_counterexample :
    2560 * 1440 ≤ k4KArea ∧
    maxInputBufferSizeCalculator 0 2560 1440 = 4 * (2 * 1024 * 1024) ∧
    4 * (2 * 1024 * 1024) ≠ (2 * 1024 * 1024 : Nat) := by
  refine ⟨by norm_num [k4KArea], ?_, by norm_num⟩
  norm_num [maxInputBufferSizeCalculator, calculateInputBufferSize, k1080pArea,
    kInputBufferSizeFor4K, kInputBufferSizeFor1080p]

/-- C1 (amended): the computed maximum input-buffer size equals 4×BASE when
the picture area exceeds the 1080p area 1920×1088 (not the 4K area), and
BASE = 2 MiB otherwise; `MaxInputBufferSizeCalculator` never lowers an
already-larger configured value — the result is the maximum of the
configured value and the calculated size. -/
theorem C1_max_input_buffer_size :
    ∀ (currentValue width height : Nat),
      maxInputBufferSizeCalculator currentValue width height =
        max currentValue
          (if width * height % 2 ^ 32 > 1920 * 1088
           then 4 * (2 * 1024 * 1024) else 2 * 1024 * 1024) := by
  intro cur w h
  unfold maxInputBufferSizeCalculator calculateInputBufferSize k1080pArea
    kInputBufferSizeFor4K kInputBufferSizeFor1080p
  split <;> simp only [] <;> split <;> omega

/-! ### C2: VideoFramePool fetch backoff -/

/-- Counterexample to C2 as stated: starting from the initial delay of
256 µs, one timed-out fetch attempt sets the next delay to 1024 µs, not the
512 µs that doubling would give. -/
theorem C2_counterexample :
    (getVideoFrameTask ⟨kFetchRetryDelayInit, 0, [], 1⟩
        ⟨.timedOut, true, .ok, .ok, none, false⟩).1.sDelay = 1024 ∧
    (1024 : Nat) ≠ 2 * kFetchRetryDelayInit := by
  constructor
  · rfl
  · decide

/-- C2 (amended): on every fetch attempt whose resolved status is TimedOut
or Blocking (and that is not the immediate retry after a successful fence
wait), the pool schedules a fresh retry task delayed by the *current*
backoff delay and multiplies the stored delay by four (not two), capping it
at 16 ms; the delay starts at 256 µs and is reset to 256 µs whenever the
attempt does not time out — in particular after any successful fetch. -/
theorem C2_fetch_backoff :
    kFetchRetryDelayInit = 256 ∧ kFetchRetryDelayMax = 16384 ∧
    (∀ (s : PoolState) (env : FetchEnv), fenceRetry env = false →
      ((finalIdErr s env).2 = .timedOut ∨ (finalIdErr s env).2 = .blocking) →
      getVideoFrameTask s env =
        ({ s with sDelay := min (s.sDelay * 4) kFetchRetryDelayMax,
                  sNumRetries := s.sNumRetries + 1 },
         .retryAfter s.sDelay)) ∧
    (∀ (s : PoolState) (env : FetchEnv), fenceRetry env = false →
      (finalIdErr s env).2 ≠ .timedOut → (finalIdErr s env).2 ≠ .blocking →
      (getVideoFrameTask s env).1.sDelay = kFetchRetryDelayInit) ∧
    (∀ (s : PoolState) (env : FetchEnv), s.sDelay ≤ kFetchRetryDelayMax →
      (getVideoFrameTask s env).1.sDelay ≤ kFetchRetryDelayMax) := by
  refine ⟨rfl, rfl, ?_, ?_, ?_⟩
  · intro s env hf he
    unfold getVideoFrameTask
    rw [hf]
    simp only [Bool.false_eq_true, if_false]
    rcases hfi : finalIdErr s env with ⟨bid, err⟩
    rw [hfi] at he
    simp only at he
    rcases he with he | he <;> rw [he] <;> simp
  · intro s env hf ht hb
    unfold getVideoFrameTask
    rw [hf]
    simp only [Bool.false_eq_true, if_false]
    rcases hfi : finalIdErr s env with ⟨bid, err⟩
    rw [hfi] at ht hb
    simp only at ht hb
    rw [if_neg (by tauto)]
    rcases he : err with _ | _ | _ | _ | _
    all_goals simp_all
    all_goals rcases bid with _ | id <;> rcases env.frameOk with _ | _ <;> rfl
  · intro s env hcap
    unfold getVideoFrameTask
    split
    · exact hcap
    · rcases hfi : finalIdErr s env with ⟨bid, err⟩
      rcases err <;> rcases bid with _ | id <;> cases env.frameOk <;>
        simp [kFetchRetryDelayInit, kFetchRetryDelayMax]

/-- Witness for C2 at a concrete state and environment: a timed-out fetch
from the initial state schedules a retry after 256 µs and quadruples the
stored delay to 1024 µs. -/
theorem C2_fetch_backoff_witness :
    fenceRetry ⟨.timedOut, true, .ok, .ok, none, false⟩ = false ∧
    (finalIdErr ⟨256, 0, [], 1⟩ ⟨.timedOut, true, .ok, .ok, none, false⟩).2 =
      .timedOut ∧
    getVideoFrameTask ⟨256, 0, [], 1⟩ ⟨.timedOut, true, .ok, .ok, none, false⟩ =
      (⟨1024, 1, [], 1⟩, .retryAfter 256) := by
  refine ⟨rfl, rfl, ?_⟩
  have h := C2_fetch_backoff.2.2.1 ⟨256, 0, [], 1⟩
    ⟨.timedOut, true, .ok, .ok, none, false⟩ rfl (Or.inl rfl)
  rw [h]
  rfl

/-! ### C6: visible rectangle -/

theorem rectContains_refl (r : ARect) : rectContains r r = true := by
  simp [rectContains]

/-- C6: the visible rectangle computed from the kernel is always contained
in the coded-size rectangle; when the selection/crop query fails, or the
kernel rectangle is empty or not inside the coded size, the rectangle
`(0, 0, codedW, codedH)` is returned, and otherwise the kernel's rectangle
is returned unchanged. -/
theorem C6_visible_rect :
    ∀ (codedW codedH : Int) (sel crop : Option V4L2Rect),
      rectContains (codedRect codedW codedH)
        (getVisibleRect codedW codedH sel crop) = true ∧
      (visibleRectQuery sel crop = none →
        getVisibleRect codedW codedH sel crop = codedRect codedW codedH) ∧
      (∀ vr, visibleRectQuery sel crop = some vr →
        ((rectContains (codedRect codedW codedH) (rectOfV4L2 vr) = false ∨
            rectIsEmpty (rectOfV4L2 vr) = true) →
          getVisibleRect codedW codedH sel crop = codedRect codedW codedH) ∧
        (rectContains (codedRect codedW codedH) (rectOfV4L2 vr) = true →
          rectIsEmpty (rectOfV4L2 vr) = false →
          getVisibleRect codedW codedH sel crop = rectOfV4L2 vr)) := by
  intro w h sel crop
  refine ⟨?_, ?_, ?_⟩
  · unfold getVisibleRect
    rcases visibleRectQuery sel crop with _ | vr
    · exact rectContains_refl _
    · dsimp only
      rcases hc : rectContains (codedRect w h) (rectOfV4L2 vr) with _ | _
      · simp [hc, rectContains_refl]
      · rcases he : rectIsEmpty (rectOfV4L2 vr) with _ | _ <;>
          simp [hc, he, rectContains_refl]
  · intro hq
    unfold getVisibleRect
    rw [hq]
  · intro vr hq
    unfold getVisibleRect
    rw [hq]
    constructor
    · rintro (hc | he)
      · simp [hc]
      · rcases hc : rectContains (codedRect w h) (rectOfV4L2 vr) with _ | _ <;>
          simp [hc, he]
    · intro hc he
      simp [hc, he]

/-- Witness for C6 at concrete inputs: a contained non-empty kernel
rectangle is returned unchanged; a query failure yields the coded size. -/
theorem C6_visible_rect_witness :
    visibleRectQuery (some ⟨10, 10, 100, 100⟩) none = some ⟨10, 10, 100, 100⟩ ∧
    rectContains (codedRect 640 480) (rectOfV4L2 ⟨10, 10, 100, 100⟩) = true ∧
    rectIsEmpty (rectOfV4L2 ⟨10, 10, 100, 100⟩) = false ∧
    getVisibleRect 640 480 (some ⟨10, 10, 100, 100⟩) none =
      rectOfV4L2 ⟨10, 10, 100, 100⟩ ∧
    visibleRectQuery none none = none ∧
    getVisibleRect 640 480 none none = codedRect 640 480 := by
  refine ⟨rfl, by decide, by decide, ?_, rfl, ?_⟩
  · exact ((C6_visible_rect 640 480 (some ⟨10, 10, 100, 100⟩) none).2.2
      ⟨10, 10, 100, 100⟩ rfl).2 (by decide) (by decide)
  · exact (C6_visible_rect 640 480 none none).2.1 rfl

/-! ### C10: requests rejected for state reasons still get their callback -/

/-- C10: `decode` in the `Error` state invokes its callback once with Error;
`drain` in the `Draining` or `Error` state invokes its callback once with
Error; `drain` in the `Idle` state invokes its callback once with OK — in
every case leaving the decoder (request queue and pending-callbacks map
included) unchanged, queueing nothing and sending no command. -/
theorem C10_state_rejection_callbacks :
    ∀ (d : Decoder) (buf : BitstreamBuffer) (cb : Nat) (env : PumpEnv),
      (d.state = .Error →
        decode d buf cb env = ⟨d, [(cb, .kError)], [], false, []⟩) ∧
      (d.state = .Draining ∨ d.state = .Error →
        drain d cb env = ⟨d, [(cb, .kError)], [], false, []⟩) ∧
      (d.state = .Idle →
        drain d cb env = ⟨d, [(cb, .kOk)], [], false, []⟩) := by
  intro d buf cb env
  refine ⟨?_, ?_, ?_⟩
  · intro hs
    unfold decode
    rw [if_pos hs]
  · rintro (hs | hs) <;> unfold drain <;> rw [hs]
  · intro hs
    unfold drain
    rw [hs]

/-- Witness for C10 at a concrete decoder. -/
theorem C10_state_rejection_callbacks_witness :
    decode ⟨.Error, [], [], none, false, false, false, .h264, 0⟩
        ⟨1, 0, 0, [], some 0⟩ 9 ⟨true, [], true, true⟩ =
      ⟨⟨.Error, [], [], none, false, false, false, .h264, 0⟩,
        [(9, .kError)], [], false, []⟩ ∧
    drain ⟨.Draining, [], [], none, false, false, false, .h264, 0⟩ 9
        ⟨true, [], true, true⟩ =
      ⟨⟨.Draining, [], [], none, false, false, false, .h264, 0⟩,
        [(9, .kError)], [], false, []⟩ ∧
    drain ⟨.Idle, [], [], none, false, false, false, .h264, 0⟩ 9
        ⟨true, [], true, true⟩ =
      ⟨⟨.Idle, [], [], none, false, false, false, .h264, 0⟩,
        [(9, .kOk)], [], false, []⟩ :=
  ⟨(C10_state_rejection_callbacks _ ⟨1, 0, 0, [], some 0⟩ 9 _).1 rfl,
    (C10_state_rejection_callbacks ⟨.Draining, [], [], none, false, false,
      false, .h264, 0⟩ ⟨1, 0, 0, [], some 0⟩ 9 ⟨true, [], true, true⟩).2.1
      (Or.inl rfl),
    (C10_state_rejection_callbacks ⟨.Idle, [], [], none, false, false,
      false, .h264, 0⟩ ⟨1, 0, 0, [], some 0⟩ 9 ⟨true, [], true, true⟩).2.2 rfl⟩

/-! ### C4: flush -/

/-- Counterexample to C4 as stated: flushing from `Decoding` when restarting
the device poller fails still aborts and clears everything, but leaves the
decoder in `Error`, not `Idle`. -/
theorem C4_counterexample :
    (⟨.Decoding, [], [(7, 42)], none, false, false, false, .h264, 0⟩ :
        Decoder).state ≠ .Idle ∧
    (⟨.Decoding, [], [(7, 42)], none, false, false, false, .h264, 0⟩ :
        Decoder).state ≠ .Error ∧
    (flush ⟨.Decoding, [], [(7, 42)], none, false, false, false, .h264, 0⟩
        false).dec.state = .Error := by
  refine ⟨by decide, by decide, rfl⟩

/-- C4 (amended): after `flush` is called in a state other than `Idle` or
`Error`, every decode callback that was pending at the time of the call has
been invoked exactly once with Aborted, the pending-callbacks map is empty,
any armed drain callback has been invoked with Aborted and disarmed, and the
decoder state is `Idle` — unless restarting the device poller fails, in
which case the state is `Error` instead. -/
theorem C4_flush_aborts_everything :
    ∀ (d : Decoder) (pollOk : Bool), d.state ≠ .Idle → d.state ≠ .Error →
      (flush d pollOk).events =
        d.pendingCbs.map (fun p => (p.2, DecodeStatus.kAborted)) ++
          (match d.drainCb with
            | some cb => [(cb, DecodeStatus.kAborted)]
            | none => []) ∧
      (flush d pollOk).dec.pendingCbs = [] ∧
      (flush d pollOk).dec.drainCb = none ∧
      (flush d pollOk).dec.state = (if pollOk then .Idle else .Error) := by
  intro d pollOk hi he
  have hE : ∀ s, setState s DState.Error = DState.Error := by
    intro s; rcases s <;> rfl
  have hI : ∀ s, s ≠ DState.Error → setState s DState.Idle = DState.Idle := by
    intro s hs
    rcases s
    · rfl
    · rfl
    · rfl
    · exact absurd rfl hs
  unfold flush
  rw [if_neg hi, if_neg he]
  cases pollOk
  · refine ⟨rfl, rfl, rfl, ?_⟩
    show (onErrorStep _).1.state = _
    unfold onErrorStep applySetState
    exact hE _
  · refine ⟨rfl, rfl, rfl, ?_⟩
    show (applySetState _ DState.Idle).1.state = _
    unfold applySetState
    exact hI _ he

/-- Witness for C4 at a concrete decoder: two pending callbacks and an armed
drain callback, flushed from `Draining` with the poller restarting fine. -/
theorem C4_flush_aborts_everything_witness :
    (⟨.Draining, [], [(3, 30), (4, 40)], some 50, false, false, false,
        .h264, 2⟩ : Decoder).state ≠ .Idle ∧
    (flush ⟨.Draining, [], [(3, 30), (4, 40)], some 50, false, false, false,
        .h264, 2⟩ true).events =
      [(30, .kAborted), (40, .kAborted), (50, .kAborted)] ∧
    (flush ⟨.Draining, [], [(3, 30), (4, 40)], some 50, false, false, false,
        .h264, 2⟩ true).dec.pendingCbs = [] ∧
    (flush ⟨.Draining, [], [(3, 30), (4, 40)], some 50, false, false, false,
        .h264, 2⟩ true).dec.drainCb = none ∧
    (flush ⟨.Draining, [], [(3, 30), (4, 40)], some 50, false, false, false,
        .h264, 2⟩ true).dec.state = .Idle := by
  have h := C4_flush_aborts_everything
    ⟨.Draining, [], [(3, 30), (4, 40)], some 50, false, false, false, .h264, 2⟩
    true (by decide) (by decide)
  exact ⟨by decide, h.1, h.2.1, h.2.2.1, h.2.2.2⟩

/-! ### C9: oversized bitstream buffer -/

/-- Counterexample to C9 as stated: a buffer with plane data offset 4 and
bitstream size 8 pumped into an input buffer of plane size 10 has declared
bytes-used 12 > 10, yet the code only compares the size (8 ≤ 10): the
decoder stays in `Decoding`, queues the buffer with bytes-used 12, and adds
the pending-callback entry. -/
theorem C9_counterexample :
    4 + 8 > 10 ∧
    pumpDecodeRequest
        ⟨.Decoding, [⟨some ⟨77, 4, 8, [], some 1⟩, 5⟩], [], none, false,
          false, false, .h264, 0⟩
        ⟨true, [(0, 10)], true, true⟩ =
      ⟨⟨.Decoding, [], [(77, 5)], none, false, false, false, .h264, 1⟩,
        [], [], false, [(77, 4, 12)]⟩ := by
  constructor
  · decide
  · rfl

/-- C9 (amended): the check guarding the kernel queueing compares the
bitstream *size alone* (not the plane data offset plus the size) against the
input buffer's plane size: when `size > planeSize` the decoder transitions
to `Error`, does not queue the buffer, and adds no pending-callback entry;
the declared bytes-used written on the queued buffer is still
`offset + size`. -/
theorem C9_oversized_bitstream :
    ∀ (d : Decoder) (buf : BitstreamBuffer) (cb : Nat)
      (rest : List DecodeRequest) (env : PumpEnv) (bufId planeSize : Nat)
      (freeRest : List (Nat × Nat)) (dmaId : Nat),
      d.state = .Decoding → d.requests = ⟨some buf, cb⟩ :: rest →
      buf.dmaId = some dmaId →
      env.freeInputBuffers = (bufId, planeSize) :: freeRest →
      buf.size > planeSize →
      pumpDecodeRequest d env =
        ⟨{ d with requests := rest, state := .Error }, [],
          [(.Decoding, .Error)], false, []⟩ := by
  intro d buf cb rest env bufId planeSize freeRest dmaId hs hreq hdma hfree hsize
  unfold pumpDecodeRequest
  rw [hs, if_neg (by simp), hreq]
  unfold pumpLoop
  dsimp only
  rw [hdma, hfree]
  dsimp only
  rw [if_pos hsize]
  unfold onErrorStep applySetState
  have hset : setState ({ d with requests := rest }).state DState.Error =
      DState.Error := by
    show setState d.state DState.Error = DState.Error
    rw [hs]
    decide
  rw [hset]
  dsimp only
  rw [hs, if_pos (by decide : DState.Error ≠ DState.Decoding)]
  rfl

/-- Witness for C9 at a concrete decoder: bitstream size 11 into a plane of
size 10 errors out without queueing and without a pending-callback entry. -/
theorem C9_oversized_bitstream_witness :
    (11 : Nat) > 10 ∧
    pumpDecodeRequest
        ⟨.Decoding, [⟨some ⟨88, 0, 11, [], some 2⟩, 6⟩], [], none, false,
          false, false, .h264, 0⟩
        ⟨true, [(1, 10)], true, true⟩ =
      ⟨⟨.Error, [], [], none, false, false, false, .h264, 0⟩, [],
        [(.Decoding, .Error)], false, []⟩ :=
  ⟨by decide,
    C9_oversized_bitstream
      ⟨.Decoding, [⟨some ⟨88, 0, 11, [], some 2⟩, 6⟩], [], none, false,
        false, false, .h264, 0⟩
      ⟨88, 0, 11, [], some 2⟩ 6 [] ⟨true, [(1, 10)], true, true⟩ 1 10 [] 2
      rfl rfl rfl rfl (by decide)⟩

/-! ### C8: HEVC SPS bounds checks -/

/-- C8: for every HEVC SPS NAL, `findCodedColorAspects` fails (returns
`false`, i.e. MalformedStream) whenever the 3-bit `max_sublayers_minus1`
field exceeds 6 (i.e. equals 7), or whenever the
`num_short_term_ref_pic_sets` field exceeds 64.  (The model is total, so
"without crashing or out-of-bounds access" holds by construction.) -/
theorem C8_hevc_sps_bounds :
    ∀ (nal : List Nat),
      (∀ m, hevcSpsMaxSublayersMinus1 nal = some m → 6 < m →
        hevcFindCodedColorAspects nal = none) ∧
      (∀ n, hevcSpsNumStRps nal = some n → 64 < n →
        hevcFindCodedColorAspects nal = none) := by
  intro nal
  constructor
  · intro m hm h6
    unfold hevcSpsMaxSublayersMinus1 at hm
    unfold hevcFindCodedColorAspects
    by_cases hl : nal.length ≤ 2
    · rw [if_pos hl]
    · rw [if_neg hl]
      rw [if_neg hl] at hm
      unfold hevcFindColorAspectsBits
      rcases hr : hevcReadMaxSublayers (nalPayloadBits nal) with _ | ⟨msl, bs⟩
      · rfl
      · rw [hr] at hm
        simp only [Option.some.injEq] at hm
        dsimp only
        unfold skipProfileTierLevel
        rw [if_pos (by omega : msl > 6)]
  · intro n hn h64
    unfold hevcSpsNumStRps at hn
    unfold hevcFindCodedColorAspects
    by_cases hl : nal.length ≤ 2
    · rw [if_pos hl]
    · rw [if_neg hl]
      rw [if_neg hl] at hn
      unfold hevcFindColorAspectsBits
      rcases hr : hevcReadMaxSublayers (nalPayloadBits nal) with _ | ⟨msl, bs⟩
      · rfl
      · rw [hr] at hn
        dsimp only at hn ⊢
        rcases hp : skipProfileTierLevel msl (skipBits 1 bs) with _ | bs2
        · rfl
        · rw [hp] at hn
          dsimp only at hn ⊢
          rcases hq : hevcParseToNumStRps msl bs2 with _ | ⟨l, n2, bs3⟩
          · rfl
          · rw [hq] at hn
            simp only [Option.some.injEq] at hn
            dsimp only
            rw [if_pos (by unfold kMaxShortTermRefPicSets; omega :
              n2 > kMaxShortTermRefPicSets)]

/-- Witness for C8: a 3-byte SPS NAL whose `max_sublayers_minus1` field is 7,
and a 20-byte SPS NAL whose `num_short_term_ref_pic_sets` field is 65; the
parser rejects both. -/
theorem C8_hevc_sps_bounds_witness :
    hevcSpsMaxSublayersMinus1 [0x42, 0x01, 0x0E] = some 7 ∧
    hevcFindCodedColorAspects [0x42, 0x01, 0x0E] = none ∧
    hevcSpsNumStRps [0x42, 0x01, 0, 0, 0, 0, 0, 0, 0, 0, 0, 0, 0, 0, 0,
      247, 127, 192, 8, 95] = some 65 ∧
    hevcFindCodedColorAspects [0x42, 0x01, 0, 0, 0, 0, 0, 0, 0, 0, 0, 0, 0,
      0, 0, 247, 127, 192, 8, 95] = none :=
  ⟨by decide,
    (C8_hevc_sps_bounds [0x42, 0x01, 0x0E]).1 7 (by decide) (by decide),
    by decide,
    (C8_hevc_sps_bounds [0x42, 0x01, 0, 0, 0, 0, 0, 0, 0, 0, 0, 0, 0, 0, 0,
      247, 127, 192, 8, 95]).2 65 (by decide) (by decide)⟩

/-! ### Helper lemmas: start-code scanning -/

theorem getD_drop (l : List Nat) (p j d : Nat) :
    (l.drop p).getD j d = l.getD (p + j) d := by
  simp [List.getD, List.getElem?_drop]

theorem isStartCodeAt_drop (bytes : List Nat) (p j : Nat) :
    IsStartCodeAt (bytes.drop p) j ↔ IsStartCodeAt bytes (p + j) := by
  unfold IsStartCodeAt
  rw [getD_drop, getD_drop, getD_drop, List.length_drop]
  constructor
  · rintro ⟨h1, h2, h3, h4⟩
    exact ⟨by omega, h2, by rw [Nat.add_assoc]; exact h3,
      by rw [Nat.add_assoc]; exact h4⟩
  · rintro ⟨h1, h2, h3, h4⟩
    exact ⟨by omega, h2, by rw [← Nat.add_assoc]; exact h3,
      by rw [← Nat.add_assoc]; exact h4⟩

theorem isStartCodeAt_cons_succ (b : Nat) (rest : List Nat) (k : Nat) :
    IsStartCodeAt (b :: rest) (k + 1) ↔ IsStartCodeAt rest k := by
  unfold IsStartCodeAt
  simp only [List.getD_cons_succ, List.length_cons]
  constructor <;> rintro ⟨h1, h2, h3, h4⟩ <;> exact ⟨by omega, h2, h3, h4⟩

theorem findSCFrom_head_iff (b : Nat) (rest : List Nat) :
    (b = 0 ∧ rest.getD 0 256 = 0 ∧ rest.getD 1 256 = 1 ∧ 2 ≤ rest.length) ↔
      IsStartCodeAt (b :: rest) 0 := by
  unfold IsStartCodeAt
  simp only [List.getD_cons_zero, List.getD_cons_succ, List.length_cons]
  constructor
  · rintro ⟨h1, h2, h3, h4⟩
    exact ⟨by omega, h1, h2, h3⟩
  · rintro ⟨h1, h2, h3, h4⟩
    exact ⟨h2, h3, h4, by omega⟩

theorem findSCFrom_le_length (l : List Nat) : findSCFrom l ≤ l.length := by
  induction l with
  | nil => simp [findSCFrom]
  | cons b rest ih =>
    unfold findSCFrom
    split
    · simp
    · simp only [List.length_cons]
      omega

theorem findSCFrom_isSC (l : List Nat) (h : findSCFrom l < l.length) :
    IsStartCodeAt l (findSCFrom l) := by
  induction l with
  | nil => simp [findSCFrom] at h
  | cons b rest ih =>
    by_cases hc : (b = 0 ∧ rest.getD 0 256 = 0 ∧ rest.getD 1 256 = 1 ∧
        2 ≤ rest.length)
    · rw [show findSCFrom (b :: rest) = 0 by
        rw [findSCFrom, if_pos hc]]
      exact (findSCFrom_head_iff b rest).mp hc
    · have he : findSCFrom (b :: rest) = 1 + findSCFrom rest := by
        rw [findSCFrom, if_neg hc]
      rw [he] at h ⊢
      rw [show 1 + findSCFrom rest = findSCFrom rest + 1 by omega]
      rw [isStartCodeAt_cons_succ]
      apply ih
      simp only [List.length_cons] at h
      omega

theorem findSCFrom_min (l : List Nat) (s : Nat) (h : IsStartCodeAt l s) :
    findSCFrom l ≤ s := by
  induction l generalizing s with
  | nil =>
    rcases h with ⟨h1, -⟩
    simp at h1
  | cons b rest ih =>
    by_cases hc : (b = 0 ∧ rest.getD 0 256 = 0 ∧ rest.getD 1 256 = 1 ∧
        2 ≤ rest.length)
    · have h0 : findSCFrom (b :: rest) = 0 := by
        rw [findSCFrom, if_pos hc]
      omega
    · have he : findSCFrom (b :: rest) = 1 + findSCFrom rest := by
        rw [findSCFrom, if_neg hc]
      rw [he]
      rcases s with _ | s
      · exact absurd ((findSCFrom_head_iff b rest).mpr h) hc
      · have := ih s ((isStartCodeAt_cons_succ b rest s).mp h)
        omega

theorem fnsc_ge (bytes : List Nat) (p : Nat) :
    p ≤ findNextStartCodePos bytes p := by
  unfold findNextStartCodePos
  omega

theorem fnsc_isSC (bytes : List Nat) (p : Nat)
    (h : findNextStartCodePos bytes p < bytes.length) :
    IsStartCodeAt bytes (findNextStartCodePos bytes p) := by
  unfold findNextStartCodePos at h ⊢
  have hlt : findSCFrom (bytes.drop p) < (bytes.drop p).length := by
    rw [List.length_drop]
    omega
  exact (isStartCodeAt_drop bytes p _).mp (findSCFrom_isSC _ hlt)

theorem fnsc_min (bytes : List Nat) (p s : Nat) (hsc : IsStartCodeAt bytes s)
    (hp : p ≤ s) : findNextStartCodePos bytes p ≤ s := by
  unfold findNextStartCodePos
  have : IsStartCodeAt (bytes.drop p) (s - p) := by
    rw [isStartCodeAt_drop]
    rwa [show p + (s - p) = s by omega]
  have := findSCFrom_min _ _ this
  omega

theorem sc_three_apart (bytes : List Nat) (s t : Nat)
    (hs : IsStartCodeAt bytes s) (ht : IsStartCodeAt bytes t) (hlt : s < t) :
    s + 3 ≤ t := by
  by_contra hcon
  rcases hs with ⟨hsl, hs0, hs1, hs2⟩
  rcases ht with ⟨htl, ht0, ht1, ht2⟩
  have : t = s + 1 ∨ t = s + 2 := by omega
  rcases this with h | h
  · rw [h] at ht1
    rw [show s + 1 + 1 = s + 2 by omega] at ht1
    omega
  · rw [h] at ht0
    omega

theorem sc_lt_length (bytes : List Nat) (s : Nat)
    (h : IsStartCodeAt bytes s) : s < bytes.length := by
  rcases h with ⟨h1, -⟩
  omega

theorem locateNalLoop_iff_aux (bytes : List Nat) (tyF : Nat → Nat)
    (target : Nat) :
    ∀ (fuel next : Nat), bytes.length - next ≤ fuel →
      (IsStartCodeAt bytes next ∨ bytes.length ≤ next) →
      (locateNalLoop bytes tyF target next = true ↔
        ∃ s, next ≤ s ∧ IsStartCodeAt bytes s ∧
          NalMatchesAt bytes tyF target s) := by
  intro fuel
  induction fuel with
  | zero =>
    intro next hf _
    rw [locateNalLoop, dif_neg (by omega : ¬ next < bytes.length)]
    constructor
    · intro hfalse
      exact absurd hfalse (by simp)
    · rintro ⟨s, hns, hsc, -⟩
      have := sc_lt_length bytes s hsc
      omega
  | succ fuel ih =>
    intro next hf hinv
    by_cases hnl : next < bytes.length
    · have hscn : IsStartCodeAt bytes next := by
        rcases hinv with h | h
        · exact h
        · omega
      rw [locateNalLoop, dif_pos hnl]
      dsimp only
      set next' := next + 3 + findSCFrom (bytes.drop (next + 3)) with hn'
      have hn'eq : next' = findNextStartCodePos bytes (next + 3) := rfl
      by_cases hm : (nalLengthAt bytes (next + 3) next' ≠ 0 ∧
          tyF (bytes.getD (next + 3) 0) = target)
      · rw [if_pos hm]
        constructor
        · intro _
          refine ⟨next, le_refl _, hscn, ?_⟩
          unfold NalMatchesAt
          rw [← hn'eq]
          exact hm
        · intro _
          rfl
      · rw [if_neg hm]
        have hge : next + 3 ≤ next' := by omega
        have hinv' : IsStartCodeAt bytes next' ∨ bytes.length ≤ next' := by
          by_cases h : next' < bytes.length
          · left
            rw [hn'eq]
            exact fnsc_isSC bytes (next + 3) (hn'eq ▸ h)
          · right
            omega
        rw [ih next' (by omega) hinv']
        constructor
        · rintro ⟨s, hns, hsc, hmt⟩
          exact ⟨s, by omega, hsc, hmt⟩
        · rintro ⟨s, hns, hsc, hmt⟩
          rcases Nat.eq_or_lt_of_le hns with rfl | hlt
          · exfalso
            apply hm
            unfold NalMatchesAt at hmt
            rw [← hn'eq] at hmt
            exact hmt
          · have h3 : s ≥ next + 3 := sc_three_apart bytes next s hscn hsc hlt
            have : next' ≤ s := by
              rw [hn'eq]
              exact fnsc_min bytes (next + 3) s hsc h3
            exact ⟨s, this, hsc, hmt⟩
    · rw [locateNalLoop, dif_neg hnl]
      constructor
      · intro hfalse
        exact absurd hfalse (by simp)
      · rintro ⟨s, hns, hsc, -⟩
        have := sc_lt_length bytes s hsc
        omega

/-- The scanning loop finds a matching NAL exactly when one exists. -/
theorem locateNalLoop_iff (bytes : List Nat) (tyF : Nat → Nat) (target : Nat) :
    locateNalLoop bytes tyF target (findNextStartCodePos bytes 0) = true ↔
      ContainsNalOfType bytes tyF target := by
  have hinv : IsStartCodeAt bytes (findNextStartCodePos bytes 0) ∨
      bytes.length ≤ findNextStartCodePos bytes 0 := by
    by_cases h : findNextStartCodePos bytes 0 < bytes.length
    · exact Or.inl (fnsc_isSC bytes 0 h)
    · exact Or.inr (by omega)
  rw [locateNalLoop_iff_aux bytes tyF target bytes.length
    (findNextStartCodePos bytes 0) (by omega) hinv]
  unfold ContainsNalOfType
  constructor
  · rintro ⟨s, -, hsc, hmt⟩
    exact ⟨s, hsc, hmt⟩
  · rintro ⟨s, hsc, hmt⟩
    exact ⟨s, fnsc_min bytes 0 s hsc (by omega), hsc, hmt⟩

theorem pumpLoop_preserves_pendingDRC (env : PumpEnv)
    (reqs : List DecodeRequest) :
    ∀ (d : Decoder) (free : List (Nat × Nat)) (evs : List (Nat × DecodeStatus))
      (tr : List (DState × DState)) (stop : Bool) (q : List (Int × Nat × Nat)),
      (pumpLoop env reqs d free evs tr stop q).dec.pendingDRC =
        d.pendingDRC := by
  induction reqs with
  | nil => intro d free evs tr stop q; rfl
  | cons req rest ih =>
    intro d free evs tr stop q
    rw [pumpLoop]
    rcases req.buffer with _ | buf
    · dsimp only
      split
      · rfl
      · split
        · rfl
        · split
          · rfl
          · split
            · rfl
            · rfl
    · dsimp only
      rcases buf.dmaId with _ | id
      · rfl
      · rcases free with _ | ⟨⟨bid, ps⟩, fr⟩
        · rfl
        · dsimp only
          split
          · rfl
          · split
            · rfl
            · exact ih _ _ _ _ _ _

theorem pumpDecodeRequest_pendingDRC (d : Decoder) (env : PumpEnv) :
    (pumpDecodeRequest d env).dec.pendingDRC = d.pendingDRC := by
  unfold pumpDecodeRequest
  split
  · rfl
  · exact pumpLoop_preserves_pendingDRC env d.requests d _ _ _ _ _

/-- C3: a drain request at the head of the queue, with no input buffers
queued and the output queue streaming, completes its callback with OK
immediately when the initial-EOS sentinel is present and the pending-DRC
latch is clear — no STOP command is sent and the state does not change (in
particular it does not enter `Draining`); the pending-DRC latch is set by a
non-secure decode exactly when the IDR-wait predicate holds for the payload,
and that predicate is: an H.264 NAL of type 5 / HEVC NAL of type 19 is
found, or bit 0 (VP8) / bit 2 (VP9) of the first payload byte is 0. -/
theorem C3_drain_shortcut_and_idr_latch :
    (∀ (d : Decoder) (cb : Nat) (rest : List DecodeRequest) (env : PumpEnv),
      d.state = .Decoding → d.requests = ⟨none, cb⟩ :: rest →
      d.inputQueued = 0 → env.outputStreaming = true →
      d.initialEosBuffer = true → d.pendingDRC = false →
      pumpDecodeRequest d env =
        ⟨{ d with requests := rest }, [(cb, .kOk)], [], false, []⟩) ∧
    (∀ (d : Decoder) (buf : BitstreamBuffer) (cb : Nat) (env : PumpEnv),
      d.isSecure = false → d.initialEosBuffer = true → d.pendingDRC = false →
      d.state ≠ .Error →
      (decode d buf cb env).dec.pendingDRC =
        waitForDRC d.codec buf.payload) ∧
    (∀ (data : List Nat),
      (waitForDRC .vp8 data = true ↔ Nat.testBit (data.getD 0 0) 0 = false) ∧
      (waitForDRC .vp9 data = true ↔ Nat.testBit (data.getD 0 0) 2 = false) ∧
      (waitForDRC .h264 data = true ↔ ContainsNalOfType data h264NalType 5) ∧
      (waitForDRC .hevc data = true ↔
        ContainsNalOfType data hevcNalType 19)) := by
  refine ⟨?_, ?_, ?_⟩
  · intro d cb rest env hs hreq hq hos heos hdrc
    unfold pumpDecodeRequest
    rw [hs, if_neg (by simp), hreq]
    rw [pumpLoop]
    dsimp only
    rw [if_neg (by omega : ¬ d.inputQueued > 0), hos]
    simp only [Bool.not_true, Bool.false_eq_true, if_false]
    rw [if_pos ⟨heos, by rw [hdrc]; exact Bool.false_ne_true⟩, hs]
    rfl
  · intro d buf cb env hsec heos hdrc hst
    unfold decode
    rw [if_neg hst]
    dsimp only
    rw [pumpDecodeRequest_pendingDRC]
    split
    · dsimp only [applySetState]
      rw [if_pos ⟨by simp [hsec], heos, by rw [hdrc]; exact Bool.false_ne_true⟩]
    · rw [if_pos ⟨by simp [hsec], heos, by rw [hdrc]; exact Bool.false_ne_true⟩]
  · intro data
    refine ⟨?_, ?_, ?_, ?_⟩
    · unfold waitForDRC
      rw [show (0x1 : Nat) = 2 ^ 0 from rfl, Nat.and_two_pow]
      cases h : Nat.testBit (data.getD 0 0) 0 <;> simp [h]
    · unfold waitForDRC
      rw [show (0x4 : Nat) = 2 ^ 2 from rfl, Nat.and_two_pow]
      cases h : Nat.testBit (data.getD 0 0) 2 <;> simp [h]
    · unfold waitForDRC h264LocateIDR
      exact locateNalLoop_iff data h264NalType 5
    · unfold waitForDRC hevcLocateIDR
      exact locateNalLoop_iff data hevcNalType 19

/-- Witness for C3: a concrete drain shortcut and a concrete VP9 keyframe
latch. -/
theorem C3_drain_shortcut_and_idr_latch_witness :
    pumpDecodeRequest
        ⟨.Decoding, [⟨none, 11⟩], [], none, true, false, false, .vp9, 0⟩
        ⟨true, [], true, true⟩ =
      ⟨⟨.Decoding, [], [], none, true, false, false, .vp9, 0⟩,
        [(11, .kOk)], [], false, []⟩ ∧
    (decode ⟨.Idle, [], [], none, true, false, false, .vp9, 0⟩
        ⟨5, 0, 1, [0], some 3⟩ 12 ⟨true, [], true, true⟩).dec.pendingDRC =
      waitForDRC .vp9 [0] ∧
    waitForDRC .vp9 [0] = true :=
  ⟨C3_drain_shortcut_and_idr_latch.1
      ⟨.Decoding, [⟨none, 11⟩], [], none, true, false, false, .vp9, 0⟩
      11 [] ⟨true, [], true, true⟩ rfl rfl rfl rfl rfl rfl,
    C3_drain_shortcut_and_idr_latch.2.1
      ⟨.Idle, [], [], none, true, false, false, .vp9, 0⟩
      ⟨5, 0, 1, [0], some 3⟩ 12 ⟨true, [], true, true⟩ rfl rfl rfl
      (by decide),
    by decide⟩

theorem setState_change_rel (s new : DState) (hne : setState s new ≠ s)
    (hok : new ≠ .Decoding ∨ s = .Idle) :
    codeStateRel s (setState s new) = true := by
  revert hne hok
  rcases s <;> rcases new <;> decide

theorem applySetState_trace_ok (d : Decoder) (new : DState)
    (hok : new ≠ .Decoding ∨ d.state = .Idle) :
    ∀ p ∈ (applySetState d new).2, codeStateRel p.1 p.2 = true := by
  intro p
  unfold applySetState
  dsimp only
  split
  · next hne =>
    intro hp
    simp only [List.mem_singleton] at hp
    subst hp
    exact setState_change_rel d.state new hne hok
  · intro hp
    simp at hp

theorem onErrorStep_trace_ok (d : Decoder) :
    ∀ p ∈ (onErrorStep d).2, codeStateRel p.1 p.2 = true :=
  applySetState_trace_ok d .Error (Or.inl (by decide))

theorem pumpLoop_trace_ok (env : PumpEnv) (reqs : List DecodeRequest) :
    ∀ (d : Decoder) (free : List (Nat × Nat)) (evs : List (Nat × DecodeStatus))
      (tr : List (DState × DState)) (stop : Bool) (q : List (Int × Nat × Nat)),
      (∀ p ∈ tr, codeStateRel p.1 p.2 = true) →
      ∀ p ∈ (pumpLoop env reqs d free evs tr stop q).stateTrace,
        codeStateRel p.1 p.2 = true := by
  induction reqs with
  | nil => intro d free evs tr stop q htr p hp; exact htr p hp
  | cons req rest ih =>
    intro d free evs tr stop q htr p
    rw [pumpLoop]
    rcases req.buffer with _ | buf
    · dsimp only
      split
      · exact htr p
      · split
        · exact htr p
        · split
          · exact htr p
          · split
            · intro hp
              rcases List.mem_append.mp hp with h | h
              · exact htr p h
              · exact onErrorStep_trace_ok _ p h
            · intro hp
              rcases List.mem_append.mp hp with h | h
              · exact htr p h
              · exact applySetState_trace_ok _ .Draining
                  (Or.inl (by decide)) p h
    · dsimp only
      rcases buf.dmaId with _ | id
      · intro hp
        rcases List.mem_append.mp hp with h | h
        · exact htr p h
        · exact onErrorStep_trace_ok _ p h
      · rcases free with _ | ⟨⟨bid, ps⟩, fr⟩
        · exact htr p
        · dsimp only
          split
          · intro hp
            rcases List.mem_append.mp hp with h | h
            · exact htr p h
            · exact onErrorStep_trace_ok _ p h
          · split
            · intro hp
              rcases List.mem_append.mp hp with h | h
              · exact htr p h
              · exact onErrorStep_trace_ok _ p h
            · exact ih _ _ _ _ _ _ htr p

theorem pumpDecodeRequest_trace_ok (d : Decoder) (env : PumpEnv) :
    ∀ p ∈ (pumpDecodeRequest d env).stateTrace,
      codeStateRel p.1 p.2 = true := by
  unfold pumpDecodeRequest
  split
  · intro p hp
    simp at hp
  · exact pumpLoop_trace_ok env d.requests d _ _ _ _ _ (by simp)

/-- C5 (amended): every state change performed by any decoder operation is
in the relation Idle→{Decoding, Error}, Decoding→{Idle, Draining, Error},
Draining→{Idle, Error} — the spec's relation extended by Idle→Error, which
`onError` performs when a device failure is reported while the decoder is
idle; `Error` is absorbing (the relation contains no transition out of
`Error`, and `setState` never leaves it). -/
theorem C5_state_transitions :
    ∀ (op : DecoderOp) (d : Decoder),
      ∀ p ∈ (applyOp op d).stateTrace, codeStateRel p.1 p.2 = true := by
  intro op d p hp
  rcases op with ⟨buf, cb, env⟩ | ⟨cb, env⟩ | env | pollOk | _ | _
  · unfold applyOp decode at hp
    dsimp only at hp
    by_cases hE : d.state = DState.Error
    · rw [if_pos hE] at hp
      simp at hp
    · rw [if_neg hE] at hp
      dsimp only at hp
      rcases List.mem_append.mp hp with h | h
      · by_cases hidle : d.state = DState.Idle
        · rw [if_pos hidle] at h
          exact applySetState_trace_ok d .Decoding (Or.inr hidle) p h
        · rw [if_neg hidle] at h
          simp at h
      · exact pumpDecodeRequest_trace_ok _ _ p h
  · unfold applyOp drain at hp
    dsimp only at hp
    rcases hs : d.state with _ | _ | _ | _ <;> rw [hs] at hp <;>
      first
        | exact pumpDecodeRequest_trace_ok _ _ p hp
        | simp at hp
  · exact pumpDecodeRequest_trace_ok _ _ p hp
  · unfold applyOp flush at hp
    dsimp only at hp
    by_cases hI : d.state = DState.Idle
    · rw [if_pos hI] at hp
      simp at hp
    · rw [if_neg hI] at hp
      by_cases hE : d.state = DState.Error
      · rw [if_pos hE] at hp
        simp at hp
      · rw [if_neg hE] at hp
        rcases pollOk
        · rw [if_neg (by simp)] at hp
          exact onErrorStep_trace_ok _ p hp
        · rw [if_pos rfl] at hp
          exact applySetState_trace_ok _ .Idle (Or.inl (by decide)) p hp
  · unfold applyOp serviceDrainDone at hp
    dsimp only at hp
    rcases hdc : d.drainCb with _ | cb <;> rw [hdc] at hp
    · simp at hp
    · exact applySetState_trace_ok _ .Idle (Or.inl (by decide)) p hp
  · exact onErrorStep_trace_ok _ p hp

/-- Counterexample to C5 as stated: the device poller's error callback
(`onError`) fired while the decoder is `Idle` performs the transition
Idle→Error, which the claimed relation does not contain. -/
theorem C5_counterexample :
    (applyOp .opServiceError
        ⟨.Idle, [], [], none, false, false, false, .h264, 0⟩).stateTrace =
      [(.Idle, .Error)] ∧
    specStateRel .Idle .Error = false :=
  ⟨rfl, rfl⟩

/-- Witness for C5 at a concrete operation: `onError` while `Decoding`
produces the transition Decoding→Error, which the relation allows. -/
theorem C5_state_transitions_witness :
    ((DState.Decoding, DState.Error) ∈
      (applyOp .opServiceError
        ⟨.Decoding, [], [], none, false, false, false, .h264, 0⟩).stateTrace) ∧
    codeStateRel .Decoding .Error = true :=
  ⟨by decide,
    C5_state_transitions .opServiceError
      ⟨.Decoding, [], [], none, false, false, false, .h264, 0⟩
      (.Decoding, .Error) (by decide)⟩

end V4L2Codec2
